import Mathlib

/-!
Shallow embedding of the clinical-notes review frontend
(`src/lib/analytics.ts`, the Home page note-grouping and quality-measure
counting helpers, and `src/components/text-search.tsx`).

Modelling conventions, shared by all definitions below:

* A JS string is a Lean `String`; `s.toLowerCase()` is `jsToLower`,
  `s.trim()` is `jsTrim`, `s.includes(t)` is `jsIncludes s t`, and
  `arr.join(' ')` is `jsJoin " "`.  These are defined by structural
  recursion on the character list so that concrete values reduce in the
  kernel.
* A note's `creation` date string is modelled by the numeric timestamp
  `new Date(creation).getTime()`, a `Nat`; the code only ever compares or
  subtracts these timestamps.
* Loosely typed JSON fields are `Option`s.  Fields the code guards with
  `typeof x === 'string'` are `Option String` with `none` for a missing or
  non-string value.  Fields the code parses with `parseInt`/`parseFloat`
  after a truthiness test (`toxicity.grade`, `treatment.total_dose`,
  `treatment.fractions`) are `Option Int`: `some v` stands for a truthy
  source value that parses to `v`, `none` for a falsy/missing/NaN one.
  `demographics.age` is the raw number, so its truthiness (`≠ 0`) is
  tested explicitly where the code tests it.
* JS `Array.prototype.sort` is stable (ES2019), so `sort(cmp)[0]` is the
  first element with extremal key: `firstMaxByCreation` /
  `firstMinByCreation`.  Full sorts are modelled with the stable
  `List.mergeSort`.
* `Set` iteration and plain-object key iteration follow insertion order;
  `dedupFirst` and `addGroup`/`groupFold` model that.
* JS floating point arithmetic in `generateInsights` and the
  survival-months computation is modelled over `Rat`/`Int` exactly
  (`Math.round(x) = ⌊x + 1/2⌋`).
-/

/-- `s.toLowerCase()` (simple per-character folding, as the analytics code
relies on for its ASCII keyword tests). -/
def jsToLower (s : String) : String := ⟨s.data.map Char.toLower⟩

/-- `s.trim()`: strip leading and trailing whitespace. -/
def jsTrim (s : String) : String :=
  ⟨((s.data.dropWhile Char.isWhitespace).reverse.dropWhile Char.isWhitespace).reverse⟩

/-- Does `sub` occur as a contiguous substring of `l`? -/
def hasSub (sub : List Char) : List Char → Bool
  | [] => sub.isEmpty
  | c :: rest => sub.isPrefixOf (c :: rest) || hasSub sub rest

/-- `s.includes(sub)` on JS strings. -/
def jsIncludes (s sub : String) : Bool := hasSub sub.data s.data

/-- `arr.join(sep)` on JS arrays of strings. -/
def jsJoin (sep : String) : List String → String
  | [] => ""
  | [x] => x
  | x :: y :: xs => x ++ sep ++ jsJoin sep (y :: xs)

/-- One entry of the per-patient score tracking arrays
(`{ source, value, date }`). -/
structure ScoreEntry where
  source : String
  value : Int
  date : Nat
deriving Repr, DecidableEq

/-- One entry of the fatigue/dermatitis report arrays
(`{ source, severity, date }`). -/
structure SideReport where
  source : String
  severity : String
  date : Nat
deriving Repr, DecidableEq

/-- `noteAbstraction.demographics`. -/
structure Demographics where
  age : Option Int := none
deriving Repr, DecidableEq

/-- `noteAbstraction.history`.  `medical_history` is the array obtained
after the code's `|| []` default and `Array.isArray ? _ : [String(_)]`
coercion; `smoking_status` is `none` when missing or not a string. -/
structure History where
  medical_history : List String := []
  smoking_status : Option String := none
deriving Repr, DecidableEq

/-- `noteAbstraction.assessment`; each score is present iff the JSON field
is not `undefined`. -/
structure Assessment where
  ecog : Option Int := none
  kps : Option Int := none
  pain_score : Option Int := none
  ipss : Option Int := none
  aua : Option Int := none
  shim : Option Int := none
  iief : Option Int := none
deriving Repr, DecidableEq

/-- `noteAbstraction.treatment`. -/
structure TreatmentFields where
  technique : Option String := none
  modality : Option String := none
  total_dose : Option Int := none
  fractions : Option Int := none
deriving Repr, DecidableEq

/-- `noteAbstraction.toxicity`. -/
structure ToxicityFields where
  grade : Option Int := none
deriving Repr, DecidableEq

/-- The structured abstraction attached to a note. -/
structure NoteData where
  demographics : Option Demographics := none
  history : Option History := none
  assessment : Option Assessment := none
  treatment : Option TreatmentFields := none
  toxicity : Option ToxicityFields := none
  side_effects : Option String := none
  disease_status : Option String := none
  review_of_systems : List (String × Option String) := []
deriving Repr, DecidableEq

/-- A clinical note record as the analytics and grouping code reads it. -/
structure Note where
  patient_id : String
  noteType : Option String := none
  description : Option String := none
  creation : Nat := 0
  noteAbstraction : Option NoteData := none
deriving Repr, DecidableEq

/-- `note.noteAbstraction?.demographics?.age`. -/
def ageOf (n : Note) : Option Int :=
  (n.noteAbstraction.bind (·.demographics)).bind (·.age)

/-- `note.noteAbstraction?.history?.medical_history || []` (already
coerced to an array, see `History`). -/
def medHistOf (n : Note) : List String :=
  ((n.noteAbstraction.bind (·.history)).map (·.medical_history)).getD []

/-- `typeof smoking_status === 'string' ? smoking_status : ''`. -/
def smokingOf (n : Note) : String :=
  ((n.noteAbstraction.bind (·.history)).bind (·.smoking_status)).getD ""

/-- `note.noteAbstraction?.assessment` with all-absent default. -/
def assessOf (n : Note) : Assessment :=
  (n.noteAbstraction.bind (·.assessment)).getD {}

/-- `note.noteAbstraction?.treatment` with all-absent default. -/
def treatOf (n : Note) : TreatmentFields :=
  (n.noteAbstraction.bind (·.treatment)).getD {}

/-- `note.noteAbstraction?.toxicity?.grade` (parsed, see conventions). -/
def toxGradeOf (n : Note) : Option Int :=
  (n.noteAbstraction.bind (·.toxicity)).bind (·.grade)

/-- `typeof side_effects === 'string' ? side_effects : ''`. -/
def sideEffectsOf (n : Note) : String :=
  (n.noteAbstraction.bind (·.side_effects)).getD ""

/-- `typeof disease_status === 'string' ? disease_status : ''`. -/
def diseaseStatusOf (n : Note) : String :=
  (n.noteAbstraction.bind (·.disease_status)).getD ""

/-- `Object.entries(noteData?.review_of_systems || {})`. -/
def rosOf (n : Note) : List (String × Option String) :=
  (n.noteAbstraction.map (·.review_of_systems)).getD []

/-- `note.description?.toLowerCase() || ''`. -/
def descLowerOf (n : Note) : String := jsToLower (n.description.getD "")

/-- The consult notes of a patient:
`notes.filter(n => n.patient_id === patientId && n.noteType === 'CONSULT')`. -/
def consultNotesOf (notes : List Note) (patientId : String) : List Note :=
  notes.filter fun n => n.patient_id == patientId && n.noteType == some "CONSULT"

/-- The patient's `WEEKLY TREATMENT` notes. -/
def weeklyNotesOf (notes : List Note) (patientId : String) : List Note :=
  notes.filter fun n => n.patient_id == patientId && n.noteType == some "WEEKLY TREATMENT"

/-- The patient's `FOLLOWUP` notes. -/
def followupNotesOf (notes : List Note) (patientId : String) : List Note :=
  notes.filter fun n => n.patient_id == patientId && n.noteType == some "FOLLOWUP"

/-- The patient's `TREATMENT SUMMARY` notes. -/
def summaryNotesOf (notes : List Note) (patientId : String) : List Note :=
  notes.filter fun n => n.patient_id == patientId && n.noteType == some "TREATMENT SUMMARY"

/-- The patient's `DAILY TREATMENT` notes. -/
def dailyNotesOf (notes : List Note) (patientId : String) : List Note :=
  notes.filter fun n => n.patient_id == patientId && n.noteType == some "DAILY TREATMENT"

/-- The patient's `SIMULATION` or `TREATMENT SUMMARY` notes, as
`extractTreatmentModality` selects them. -/
def modalityNotesOf (notes : List Note) (patientId : String) : List Note :=
  notes.filter fun n => n.patient_id == patientId &&
    (n.noteType == some "SIMULATION" || n.noteType == some "TREATMENT SUMMARY")

/-- The `ComorbidityProfile` interface of `analytics.ts`. -/
structure ComorbidityProfile where
  patientId : String
  age : Option Int
  hypertension : Bool
  copd : Bool
  diabetes : Bool
  cad : Bool
  smokingHistory : Bool
  allMedicalConditions : List String
  ecogScores : List ScoreEntry
  kpsScores : List ScoreEntry
  painScores : List ScoreEntry
  ipssScores : List ScoreEntry
  auaScores : List ScoreEntry
  shimScores : List ScoreEntry
  iiefScores : List ScoreEntry
deriving Repr, DecidableEq

/-- Append a score entry when the assessment field is present
(`if (x !== undefined) scores.push(...)`). -/
def pushScore (l : List ScoreEntry) (src : String) (v : Option Int) (d : Nat) :
    List ScoreEntry :=
  match v with
  | some x => l ++ [⟨src, x, d⟩]
  | none => l

/-- The joined, lowercased medical-history text of one note
(`medicalHistoryArray.join(' ').toLowerCase()`). -/
def mhLower (n : Note) : String := jsToLower (jsJoin " " (medHistOf n))

/-- The lowercased smoking status of one note. -/
def smokingLower (n : Note) : String := jsToLower (smokingOf n)

/-- Body of the `consultNotes.forEach` loop of `extractComorbidityProfile`. -/
def consultStep (s : ComorbidityProfile) (n : Note) : ComorbidityProfile :=
  let a := assessOf n
  { s with
    age := match ageOf n with
      | some v => if v != 0 then some v else s.age
      | none => s.age
    allMedicalConditions := s.allMedicalConditions ++
      (medHistOf n).filter (fun c => c != "" && jsTrim c != "")
    hypertension := s.hypertension || jsIncludes (mhLower n) "hypertension" ||
      jsIncludes (mhLower n) "htn" || jsIncludes (mhLower n) "high blood pressure"
    copd := s.copd || jsIncludes (mhLower n) "copd" ||
      jsIncludes (mhLower n) "chronic obstructive" || jsIncludes (mhLower n) "emphysema"
    diabetes := s.diabetes || jsIncludes (mhLower n) "diabetes" ||
      jsIncludes (mhLower n) "dm" || jsIncludes (mhLower n) "diabetic"
    cad := s.cad || jsIncludes (mhLower n) "coronary" ||
      jsIncludes (mhLower n) "cad" || jsIncludes (mhLower n) "heart disease"
    smokingHistory := s.smokingHistory || jsIncludes (smokingLower n) "former" ||
      jsIncludes (smokingLower n) "current" || jsIncludes (smokingLower n) "smoking"
    ecogScores := pushScore s.ecogScores "consult" a.ecog n.creation
    kpsScores := pushScore s.kpsScores "consult" a.kps n.creation
    painScores := pushScore s.painScores "consult" a.pain_score n.creation
    ipssScores := pushScore s.ipssScores "consult" a.ipss n.creation
    auaScores := pushScore s.auaScores "consult" a.aua n.creation
    shimScores := pushScore s.shimScores "consult" a.shim n.creation
    iiefScores := pushScore s.iiefScores "consult" a.iief n.creation }

/-- Body of the `weeklyNotes.forEach` loop of `extractComorbidityProfile`. -/
def weeklyScoreStep (s : ComorbidityProfile) (n : Note) : ComorbidityProfile :=
  let a := assessOf n
  { s with
    ecogScores := pushScore s.ecogScores "weekly" a.ecog n.creation
    kpsScores := pushScore s.kpsScores "weekly" a.kps n.creation
    painScores := pushScore s.painScores "weekly" a.pain_score n.creation
    ipssScores := pushScore s.ipssScores "weekly" a.ipss n.creation
    auaScores := pushScore s.auaScores "weekly" a.aua n.creation
    shimScores := pushScore s.shimScores "weekly" a.shim n.creation
    iiefScores := pushScore s.iiefScores "weekly" a.iief n.creation }

/-- Body of the `followupNotes.forEach` loop of `extractComorbidityProfile`. -/
def followupScoreStep (s : ComorbidityProfile) (n : Note) : ComorbidityProfile :=
  let a := assessOf n
  { s with
    ecogScores := pushScore s.ecogScores "followup" a.ecog n.creation
    kpsScores := pushScore s.kpsScores "followup" a.kps n.creation
    painScores := pushScore s.painScores "followup" a.pain_score n.creation
    ipssScores := pushScore s.ipssScores "followup" a.ipss n.creation
    auaScores := pushScore s.auaScores "followup" a.aua n.creation
    shimScores := pushScore s.shimScores "followup" a.shim n.creation
    iiefScores := pushScore s.iiefScores "followup" a.iief n.creation }

/-- Body of the `treatmentSummaryNotes.forEach` loop of
`extractComorbidityProfile`. -/
def summaryScoreStep (s : ComorbidityProfile) (n : Note) : ComorbidityProfile :=
  let a := assessOf n
  { s with
    ipssScores := pushScore s.ipssScores "treatment-summary" a.ipss n.creation
    auaScores := pushScore s.auaScores "treatment-summary" a.aua n.creation
    shimScores := pushScore s.shimScores "treatment-summary" a.shim n.creation
    iiefScores := pushScore s.iiefScores "treatment-summary" a.iief n.creation }

/-- Insertion-ordered set insertion (JS `Set.add` observed through
insertion-order iteration). -/
def insertNew (acc : List String) (x : String) : List String :=
  if x ∈ acc then acc else acc ++ [x]

/-- `Array.from(new Set(l))`: first occurrences, in order. -/
def dedupFirst (l : List String) : List String := l.foldl insertNew []

/-- The all-empty initial profile state of `extractComorbidityProfile`. -/
def initProfile (patientId : String) : ComorbidityProfile :=
  ⟨patientId, none, false, false, false, false, false, [], [], [], [], [], [], [], []⟩

/-- `ComorbidityAnalyzer.extractComorbidityProfile`. -/
def extractComorbidityProfile (notes : List Note) (patientId : String) :
    ComorbidityProfile :=
  let s1 := (consultNotesOf notes patientId).foldl consultStep (initProfile patientId)
  let s2 := (weeklyNotesOf notes patientId).foldl weeklyScoreStep s1
  let s3 := (followupNotesOf notes patientId).foldl followupScoreStep s2
  let s4 := (summaryNotesOf notes patientId).foldl summaryScoreStep s3
  { s4 with allMedicalConditions := dedupFirst s4.allMedicalConditions }

/-- The `TreatmentModality` interface (the returned fields). -/
structure TreatmentModality where
  patientId : String
  treatmentType : String
  totalDose : Option Int
  fractions : Option Int
  technique : Option String
deriving Repr, DecidableEq

/-- Mutable state of the `extractTreatmentModality` loop. -/
structure ModalityState where
  treatmentType : String
  totalDose : Option Int
  fractions : Option Int
  technique : Option String
deriving Repr, DecidableEq

/-- Body of the `for (const note of treatmentNotes)` loop of
`extractTreatmentModality`. -/
def modalityStep (s : ModalityState) (n : Note) : ModalityState :=
  let t := treatOf n
  let d := descLowerOf n
  let s1 := match t.technique with
    | some tech => if tech != "" then { s with technique := some tech, treatmentType := tech } else s
    | none => s
  let s2 := match t.modality with
    | some m0 =>
      if m0 != "" then
        let m := jsToLower m0
        { s1 with treatmentType :=
            if jsIncludes m "sbrt" || jsIncludes m "stereotactic" then "SBRT"
            else if jsIncludes m "imrt" || jsIncludes m "intensity" then "IMRT"
            else if jsIncludes m "3d" || jsIncludes m "conformal" then "3D-CRT"
            else if jsIncludes m "proton" then "Proton"
            else if jsIncludes m "hdr" || jsIncludes m "brachytherapy" then "HDR"
            else m0 }
      else s1
    | none => s1
  let s3 :=
    if s2.treatmentType == "Unknown" then
      { s2 with treatmentType :=
          if jsIncludes d "sbrt" || jsIncludes d "stereotactic" then "SBRT"
          else if jsIncludes d "imrt" || jsIncludes d "intensity" then "IMRT"
          else if jsIncludes d "3d" || jsIncludes d "conformal" then "3D-CRT"
          else if jsIncludes d "proton" then "Proton"
          else if jsIncludes d "hdr" || jsIncludes d "brachytherapy" then "HDR"
          else "Unknown" }
    else s2
  let s4 := match t.total_dose with
    | some dose => { s3 with totalDose := some dose }
    | none => s3
  match t.fractions with
  | some f => { s4 with fractions := some f }
  | none => s4

/-- `ComorbidityAnalyzer.extractTreatmentModality`. -/
def extractTreatmentModality (notes : List Note) (patientId : String) :
    TreatmentModality :=
  let s := (modalityNotesOf notes patientId).foldl modalityStep ⟨"Unknown", none, none, none⟩
  ⟨patientId, s.treatmentType, s.totalDose, s.fractions, s.technique⟩

/-- The `TreatmentTolerance` interface. -/
structure TreatmentTolerance where
  patientId : String
  interruptions : Nat
  doseReductions : Bool
  toxicityGrade : Option Int
  completedTreatment : Bool
  fatigueReports : List SideReport
  dermatitisReports : List SideReport
deriving Repr, DecidableEq

/-- Mutable state of the `extractTreatmentTolerance` loops. -/
structure ToleranceState where
  interruptions : Nat
  doseReductions : Bool
  toxicityGrade : Int
  fatigueReports : List SideReport
  dermatitisReports : List SideReport
deriving Repr, DecidableEq

/-- Body of the daily-treatment loop of `extractTreatmentTolerance`. -/
def dailyStep (s : ToleranceState) (n : Note) : ToleranceState :=
  let d := descLowerOf n
  let s1 :=
    if jsIncludes d "interrupt" || jsIncludes d "delay" ||
        jsIncludes d "break" || jsIncludes d "hold" then
      { s with interruptions := s.interruptions + 1 }
    else s
  let s2 :=
    if jsIncludes d "reduce" || jsIncludes d "decreased" || jsIncludes d "modified" then
      { s1 with doseReductions := true }
    else s1
  match toxGradeOf n with
  | some g => { s2 with toxicityGrade := max s2.toxicityGrade g }
  | none => s2

/-- The severity classification applied to a lowercased side-effects
string. -/
def severityOf (se : String) : String :=
  if jsIncludes se "severe" || jsIncludes se "grade 3" then "severe"
  else if jsIncludes se "moderate" || jsIncludes se "grade 2" then "moderate"
  else "mild"

/-- Body of the inner `Object.entries(reviewOfSystems).forEach` loop. -/
def rosStep (d : Nat) (st : ToleranceState) (kv : String × Option String) :
    ToleranceState :=
  match kv.2 with
  | some v =>
    let sv := jsToLower v
    let st1 :=
      if jsToLower kv.1 == "energy" || jsIncludes sv "fatigue" || jsIncludes sv "tired" then
        { st with fatigueReports := st.fatigueReports ++ [⟨"weekly", "mild", d⟩] }
      else st
    if jsToLower kv.1 == "skin" || jsIncludes sv "rash" || jsIncludes sv "dermatitis" then
      { st1 with dermatitisReports := st1.dermatitisReports ++ [⟨"weekly", "mild", d⟩] }
    else st1
  | none => st

/-- Body of the weekly-treatment loop of `extractTreatmentTolerance`. -/
def weeklyTolStep (s : ToleranceState) (n : Note) : ToleranceState :=
  let se := jsToLower (sideEffectsOf n)
  let s1 :=
    if jsIncludes se "fatigue" || jsIncludes se "tired" || jsIncludes se "exhausted" then
      { s with fatigueReports := s.fatigueReports ++ [⟨"weekly", severityOf se, n.creation⟩] }
    else s
  let s2 :=
    if jsIncludes se "dermatitis" || jsIncludes se "skin" || jsIncludes se "rash" then
      { s1 with dermatitisReports := s1.dermatitisReports ++ [⟨"weekly", severityOf se, n.creation⟩] }
    else s1
  (rosOf n).foldl (rosStep n.creation) s2

/-- Body of the follow-up loop of `extractTreatmentTolerance`. -/
def followupTolStep (s : ToleranceState) (n : Note) : ToleranceState :=
  let se := jsToLower (sideEffectsOf n)
  let s1 :=
    if jsIncludes se "fatigue" || jsIncludes se "tired" || jsIncludes se "exhausted" then
      { s with fatigueReports := s.fatigueReports ++ [⟨"followup", severityOf se, n.creation⟩] }
    else s
  if jsIncludes se "dermatitis" || jsIncludes se "skin" || jsIncludes se "rash" then
    { s1 with dermatitisReports := s1.dermatitisReports ++ [⟨"followup", severityOf se, n.creation⟩] }
  else s1

/-- `ComorbidityAnalyzer.extractTreatmentTolerance`. -/
def extractTreatmentTolerance (notes : List Note) (patientId : String) :
    TreatmentTolerance :=
  let t1 := (dailyNotesOf notes patientId).foldl dailyStep ⟨0, false, 0, [], []⟩
  let t2 := (weeklyNotesOf notes patientId).foldl weeklyTolStep t1
  let t3 := (followupNotesOf notes patientId).foldl followupTolStep t2
  ⟨patientId, t3.interruptions, t3.doseReductions,
    if t3.toxicityGrade > 0 then some t3.toxicityGrade else none,
    decide (t3.interruptions < 3), t3.fatigueReports, t3.dermatitisReports⟩

/-- The `OutcomeData` interface. -/
structure OutcomeData where
  patientId : String
  localControl : Bool
  recurrence : Bool
  survivalMonths : Option Int
  lateToxicity : Bool
  grade3Toxicity : Bool
deriving Repr, DecidableEq

/-- First element with maximal `creation`: models
`arr.sort((a, b) => bT - aT)[0]` under the stable ES2019 sort
(`none` iff the array is empty). -/
def firstMaxByCreation : List Note → Option Note
  | [] => none
  | n :: ns =>
    match firstMaxByCreation ns with
    | none => some n
    | some m => if m.creation > n.creation then some m else some n

/-- First element with minimal `creation`: models
`arr.sort((a, b) => aT - bT)[0]` under the stable ES2019 sort. -/
def firstMinByCreation : List Note → Option Note
  | [] => none
  | n :: ns =>
    match firstMinByCreation ns with
    | none => some n
    | some m => if m.creation < n.creation then some m else some n

/-- Milliseconds per "month" used by the survival computation
(`1000 * 60 * 60 * 24 * 30`). -/
def msPerMonth : Int := 2592000000

/-- `Math.round(diff / msPerMonth)` computed exactly over the integers:
`⌊diff / msPerMonth + 1/2⌋`. -/
def jsRoundMonths (diff : Int) : Int := Int.fdiv (2 * diff + msPerMonth) (2 * msPerMonth)

/-- `ComorbidityAnalyzer.extractOutcomeData`. -/
def extractOutcomeData (notes : List Note) (patientId : String) : OutcomeData :=
  match firstMaxByCreation (followupNotesOf notes patientId) with
  | none => ⟨patientId, false, false, none, false, false⟩
  | some latestFollowup =>
    let diseaseStatus := jsToLower (diseaseStatusOf latestFollowup)
    let sideEffects := jsToLower (sideEffectsOf latestFollowup)
    let survivalMonths : Option Int :=
      match firstMinByCreation (consultNotesOf notes patientId) with
      | none => none
      | some firstTreatment =>
        some (jsRoundMonths ((latestFollowup.creation : Int) - (firstTreatment.creation : Int)))
    ⟨patientId,
      jsIncludes diseaseStatus "ned" || jsIncludes diseaseStatus "no evidence",
      jsIncludes diseaseStatus "recurrence" || jsIncludes diseaseStatus "progression",
      survivalMonths,
      jsIncludes sideEffects "chronic" || jsIncludes sideEffects "persistent",
      jsIncludes sideEffects "severe" || jsIncludes sideEffects "grade 3"⟩

/-- One element of the array returned by
`ComorbidityAnalyzer.generatePatientAnalytics`. -/
structure PatientAnalytics where
  patientId : String
  comorbidities : ComorbidityProfile
  treatment : TreatmentModality
  tolerance : TreatmentTolerance
  outcomes : OutcomeData
deriving Repr, DecidableEq

/-- `ComorbidityAnalyzer.generatePatientAnalytics`. -/
def generatePatientAnalytics (notes : List Note) : List PatientAnalytics :=
  let patientIds := dedupFirst (notes.map (·.patient_id))
  patientIds.map fun patientId =>
    ⟨patientId,
      extractComorbidityProfile notes patientId,
      extractTreatmentModality notes patientId,
      extractTreatmentTolerance notes patientId,
      extractOutcomeData notes patientId⟩

/-- A `{ min, max }` numeric range of `CohortFilters`. -/
structure NumRange where
  min : Int
  max : Int
deriving Repr, DecidableEq

/-- The `CohortFilters` interface. -/
structure CohortFilters where
  ageRange : Option NumRange := none
  diseaseStage : Option (List String) := none
  treatmentTypes : Option (List String) := none
  comorbidities : Option (List String) := none
  ecogRange : Option NumRange := none
deriving Repr, DecidableEq

/-- The `switch (comorbidity.toLowerCase())` of the comorbidity filter. -/
def comorbidityFlag (p : PatientAnalytics) (c : String) : Bool :=
  let cl := jsToLower c
  if cl == "copd" then p.comorbidities.copd
  else if cl == "diabetes" then p.comorbidities.diabetes
  else if cl == "hypertension" then p.comorbidities.hypertension
  else if cl == "cad" then p.comorbidities.cad
  else if cl == "smoking" then p.comorbidities.smokingHistory
  else false

/-- The age early-return of `filterPatientCohort`: applies only when a
range is supplied and the patient's age is truthy (present and nonzero). -/
def ageFail (filters : CohortFilters) (p : PatientAnalytics) : Bool :=
  match filters.ageRange, p.comorbidities.age with
  | some r, some a =>
    if a != 0 then decide (a < r.min) || decide (r.max < a) else false
  | _, _ => false

/-- The treatment-type early-return: applies only when a non-empty list is
supplied. -/
def treatFail (filters : CohortFilters) (p : PatientAnalytics) : Bool :=
  match filters.treatmentTypes with
  | some ts => if ts.length > 0 then !(ts.contains p.treatment.treatmentType) else false
  | none => false

/-- The comorbidity early-return: applies only when a non-empty list is
supplied. -/
def comorbFail (filters : CohortFilters) (p : PatientAnalytics) : Bool :=
  match filters.comorbidities with
  | some cs => if cs.length > 0 then !(cs.all (comorbidityFlag p)) else false
  | none => false

/-- The ECOG early-return: applies only when a range is supplied and the
patient has at least one recorded ECOG score; compares the last array
entry. -/
def ecogFail (filters : CohortFilters) (p : PatientAnalytics) : Bool :=
  match filters.ecogRange with
  | some r =>
    if p.comorbidities.ecogScores.length > 0 then
      match p.comorbidities.ecogScores.getLast? with
      | some e => decide (e.value < r.min) || decide (r.max < e.value)
      | none => false
    else false
  | none => false

/-- The early-return predicate body of `filterPatientCohort`. -/
def cohortPred (filters : CohortFilters) (p : PatientAnalytics) : Bool :=
  if ageFail filters p then false
  else if treatFail filters p then false
  else if comorbFail filters p then false
  else if ecogFail filters p then false
  else true

/-- `ComorbidityAnalyzer.filterPatientCohort`. -/
def filterPatientCohort (analytics : List PatientAnalytics) (filters : CohortFilters) :
    List String :=
  (analytics.filter (cohortPred filters)).map (·.patientId)

/-- `acc[key].push(x)` with on-demand key creation, on an insertion-ordered
association list (a JS plain object). -/
def addGroup {α : Type} (k : String) (x : α) : List (String × List α) → List (String × List α)
  | [] => [(k, [x])]
  | (k', v) :: rest => if k' == k then (k', v ++ [x]) :: rest else (k', v) :: addGroup k x rest

/-- `l.reduce((acc, x) => { (acc[key(x)] ||= []).push(x); return acc }, {})`. -/
def groupFold {α : Type} (key : α → String) (l : List α) : List (String × List α) :=
  l.foldl (fun acc x => addGroup (key x) x acc) []

/-- `groups[k] || []`: association-list lookup with `[]` default. -/
def getGroup {α : Type} (k : String) : List (String × List α) → List α
  | [] => []
  | (k₀, v) :: rest => if k₀ == k then v else getGroup k rest

/-- The grouping key of `generateInsights`:
`` `${treatmentType}_${copd ? 'COPD' : 'NoCOPD'}` ``. -/
def copdKey (p : PatientAnalytics) : String :=
  p.treatment.treatmentType ++ "_" ++ (if p.comorbidities.copd then "COPD" else "NoCOPD")

/-- `l.reduce((sum, p) => sum + p.tolerance.interruptions, 0) / l.length`. -/
def avgInterruptions (l : List PatientAnalytics) : Rat :=
  ((l.foldl (fun s p => s + (p.tolerance.interruptions : Int)) 0 : Int) : Rat) / (l.length : Rat)

/-- `l.filter(p => p.outcomes.grade3Toxicity).length / l.length`. -/
def grade3Rate (l : List PatientAnalytics) : Rat :=
  (((l.filter (·.outcomes.grade3Toxicity)).length : Int) : Rat) / (l.length : Rat)

/-- `x.toFixed(1)` for the nonnegative rationals produced above. -/
def ratToFixed1 (q : Rat) : String :=
  let n : Int := (q * 10 + 1 / 2).floor
  toString (n / 10) ++ "." ++ toString (n % 10)

/-- `x.toFixed(0)` for the nonnegative rationals produced above. -/
def ratToFixed0 (q : Rat) : String := toString ((q + 1 / 2).floor)

/-- `s.charAt(0).toUpperCase() + s.slice(1)`. -/
def capFirst (s : String) : String :=
  match s.data with
  | [] => s
  | c :: cs => ⟨c.toUpper :: cs⟩

/-- `ComorbidityAnalyzer.generateInsights`. -/
def generateInsights (analytics : List PatientAnalytics) : List String :=
  let treatmentGroups := groupFold copdKey analytics
  let sbrtCopd := getGroup "SBRT_COPD" treatmentGroups
  let imrtCopd := getGroup "IMRT_COPD" treatmentGroups
  let copdInsights :=
    if sbrtCopd.length > 0 && imrtCopd.length > 0 then
      let sbrtInterruptions := avgInterruptions sbrtCopd
      let imrtInterruptions := avgInterruptions imrtCopd
      if |sbrtInterruptions - imrtInterruptions| > 1 / 2 then
        let better := if sbrtInterruptions < imrtInterruptions then "SBRT" else "IMRT"
        let diff := ratToFixed1 |sbrtInterruptions - imrtInterruptions|
        ["Among patients with COPD, " ++ better ++ " had " ++ diff ++
          " fewer treatment interruptions on average."]
      else []
    else []
  let diabeticPatients := analytics.filter (·.comorbidities.diabetes)
  let nonDiabeticPatients := analytics.filter (fun p => !p.comorbidities.diabetes)
  let diabetesInsights :=
    if diabeticPatients.length > 0 && nonDiabeticPatients.length > 0 then
      let diabeticGrade3 := grade3Rate diabeticPatients
      let nonDiabeticGrade3 := grade3Rate nonDiabeticPatients
      if |diabeticGrade3 - nonDiabeticGrade3| > 1 / 10 then
        let higher := if diabeticGrade3 > nonDiabeticGrade3 then "diabetic" else "non-diabetic"
        let diff := ratToFixed0 (|diabeticGrade3 - nonDiabeticGrade3| * 100)
        [capFirst higher ++ " patients had " ++ diff ++ "% higher rate of Grade 3+ toxicity."]
      else []
    else []
  copdInsights ++ diabetesInsights

/-- A match reported by the side-by-side viewer's text search. -/
structure SearchMatch where
  index : Nat
  length : Nat
deriving Repr, DecidableEq

/-- The lowercased character list of a string (how the `'i'` regex flag is
modelled). -/
def lowerChars (s : String) : List Char := s.data.map Char.toLower

/-- The `regex.exec` loop of `findMatches`: report an occurrence of `t` at
the current index, then resume after it (the regex has all metacharacters
escaped, so it matches `t` literally and each match has length
`t.length`).  The fuel argument, always instantiated with the content
length, keeps the recursion structural. -/
def scanAux (t : List Char) : Nat → List Char → Nat → List Nat
  | 0, _, _ => []
  | _ + 1, [], _ => []
  | fuel + 1, ch :: rest, i =>
    if t.isPrefixOf (ch :: rest) then
      i :: scanAux t fuel (rest.drop (t.length - 1)) (i + t.length)
    else
      scanAux t fuel rest (i + 1)

/-- All case-insensitive literal occurrences of `t` in `c`, left to right,
non-overlapping. -/
def scanMatches (t c : List Char) : List Nat := scanAux t c.length c 0

/-- `findMatches` of `text-search.tsx`. -/
def findMatches (term content : String) : List SearchMatch :=
  if jsTrim term == "" then []
  else (scanMatches (lowerChars term) (lowerChars content)).map fun i => ⟨i, term.length⟩

/-- The tab key the Home page assigns to a note type string
(`mapNoteTypeToTab`). -/
def mapNoteTypeToTab (noteType : String) : String :=
  if noteType == "" then "other"
  else
    let t := jsToLower noteType
    if t == "follow-up" || t == "followup" || t == "follow up" then "followup"
    else if jsIncludes t "consult" then "consult"
    else if jsIncludes t "ct" && jsIncludes t "simulation" then "ct-simulation"
    else if jsIncludes t "simulation" then "ct-simulation"
    else if jsIncludes t "daily" && jsIncludes t "treatment" then "daily-treatment"
    else if jsIncludes t "weekly" && jsIncludes t "treatment" then "weekly-treatment"
    else if jsIncludes t "nurse" then "nurse"
    else if jsIncludes t "treatment" && jsIncludes t "summary" then "treatment-summary"
    else if jsIncludes t "follow" && (jsIncludes t "up" || jsIncludes t "-up") then "followup"
    else "other"

/-- The tab key of a note:
`note.noteType ? mapNoteTypeToTab(note.noteType) : mapNoteTypeToTab(note.description || '')`. -/
def tabOf (n : Note) : String :=
  match n.noteType with
  | some t => if t != "" then mapNoteTypeToTab t else mapNoteTypeToTab (n.description.getD "")
  | none => mapNoteTypeToTab (n.description.getD "")

/-- The comparator `(a, b) => bTime - aTime` as a sort order (newest
first). -/
def creationDescLe (a b : Note) : Bool := decide (b.creation ≤ a.creation)

/-- `groupNotesByType` of the Home page: bucket notes by tab key, then sort
each bucket by creation date, newest first. -/
def groupNotesByType (notes : List Note) : List (String × List Note) :=
  (groupFold tabOf notes).map fun kv => (kv.1, kv.2.mergeSort creationDescLe)

/-- One quality measure as the header counts read it. -/
structure QualityMeasure where
  final_outcome : Option String := none
deriving Repr, DecidableEq

/-- `measure.final_outcome?.toLowerCase()`. -/
def qmOutcomeLower (m : QualityMeasure) : Option String := m.final_outcome.map jsToLower

/-- The three header counts of the Home page (`qualityMeasuresCounts`):
passed, failed, excluded. -/
def qualityMeasuresCounts (measures : List QualityMeasure) : Nat × Nat × Nat :=
  ((measures.filter (fun m => qmOutcomeLower m == some "pass")).length,
   (measures.filter (fun m => qmOutcomeLower m == some "fail")).length,
   (measures.filter (fun m =>
      qmOutcomeLower m == some "exclusion" || qmOutcomeLower m == some "excluded" ||
        qmOutcomeLower m == some "exclude")).length)

/-! ## General lemmas about the embedding's iteration patterns -/

/-- A filter on patient id and a further condition factors through the
patient-id filter. -/
theorem filter_patient_factor (notes : List Note) (pid : String) (c : Note → Bool) :
    notes.filter (fun n => n.patient_id == pid && c n) =
      (notes.filter (fun n => n.patient_id == pid)).filter c := by
  induction notes with
  | nil => rfl
  | cons a l ih =>
    simp only [List.filter_cons]
    cases h1 : (a.patient_id == pid) <;> cases h2 : c a <;>
      simp [h1, h2, List.filter_cons, ih]

/-- Two note lists with the same patient-`p` subsequence select the same
notes under any additional condition. -/
theorem sameFilter_and (notes₁ notes₂ : List Note) (p : String)
    (h : notes₁.filter (fun n => n.patient_id == p) =
      notes₂.filter (fun n => n.patient_id == p)) (c : Note → Bool) :
    notes₁.filter (fun n => n.patient_id == p && c n) =
      notes₂.filter (fun n => n.patient_id == p && c n) := by
  rw [filter_patient_factor, filter_patient_factor, h]

/-- A projection commuting with the step function commutes with the fold. -/
theorem foldl_proj {α β γ : Type} (f : α → β → α) (g : α → γ) (h : γ → β → γ)
    (hf : ∀ s n, g (f s n) = h (g s) n) :
    ∀ (l : List β) (s : α), g (l.foldl f s) = l.foldl h (g s) := by
  intro l
  induction l with
  | nil => intro s; rfl
  | cons a l ih => intro s; simp only [List.foldl_cons, ih, hf]

/-- A projection untouched by the step function is untouched by the fold. -/
theorem foldl_preserves {α β γ : Type} (f : α → β → α) (g : α → γ)
    (hf : ∀ s n, g (f s n) = g s) :
    ∀ (l : List β) (s : α), g (l.foldl f s) = g s := by
  intro l s
  rw [foldl_proj f g (fun x _ => x) hf l s]
  induction l generalizing s with
  | nil => rfl
  | cons a l ih => exact ih s

/-- An or-accumulating fold is `any`. -/
theorem foldl_or_eq_any {β : Type} (p : β → Bool) :
    ∀ (l : List β) (b : Bool), l.foldl (fun b n => b || p n) b = (b || l.any p) := by
  intro l
  induction l with
  | nil => intro b; simp
  | cons a l ih => intro b; simp [ih, Bool.or_assoc]

/-- A conditional-increment fold is `countP`. -/
theorem foldl_count_eq_countP {β : Type} (p : β → Bool) :
    ∀ (l : List β) (c : Nat),
      l.foldl (fun c n => if p n then c + 1 else c) c = c + l.countP p := by
  intro l
  induction l with
  | nil => intro c; simp
  | cons a l ih =>
    intro c
    cases h : p a <;> simp [List.countP_cons, h, ih] <;> omega

/-- `hasSub` decides the contiguous-substring relation. -/
theorem hasSub_iff (sub : List Char) :
    ∀ l : List Char, hasSub sub l = true ↔ sub <:+: l := by
  intro l
  induction l with
  | nil => simp [hasSub, List.isEmpty_iff, List.infix_nil]
  | cons c rest ih =>
    simp [hasSub, Bool.or_eq_true, List.isPrefixOf_iff_prefix, ih, List.infix_cons_iff]

/-- `s.includes(sub)` holds iff `sub` occurs in `s`. -/
theorem jsIncludes_iff (s sub : String) : jsIncludes s sub = true ↔ sub.data <:+: s.data :=
  hasSub_iff sub.data s.data

/-! ## C2: the per-patient extractions read only the patient's notes -/

/-- The claim theorem for C2 (below) needs each of the six note-list
selectors to agree on note lists with equal patient-`p` subsequences. -/
theorem noteSelectors_congr (notes₁ notes₂ : List Note) (p : String)
    (h : notes₁.filter (fun n => n.patient_id == p) =
      notes₂.filter (fun n => n.patient_id == p)) :
    consultNotesOf notes₁ p = consultNotesOf notes₂ p ∧
    weeklyNotesOf notes₁ p = weeklyNotesOf notes₂ p ∧
    followupNotesOf notes₁ p = followupNotesOf notes₂ p ∧
    summaryNotesOf notes₁ p = summaryNotesOf notes₂ p ∧
    dailyNotesOf notes₁ p = dailyNotesOf notes₂ p ∧
    modalityNotesOf notes₁ p = modalityNotesOf notes₂ p := by
  exact ⟨sameFilter_and notes₁ notes₂ p h _, sameFilter_and notes₁ notes₂ p h _,
    sameFilter_and notes₁ notes₂ p h _, sameFilter_and notes₁ notes₂ p h _,
    sameFilter_and notes₁ notes₂ p h _, sameFilter_and notes₁ notes₂ p h _⟩

/-- C2: each per-patient extraction depends only on the subsequence of
notes whose `patient_id` equals `p`; notes of other patients never
influence it. -/
theorem extractions_local_to_patient (notes₁ notes₂ : List Note) (p : String)
    (h : notes₁.filter (fun n => n.patient_id == p) =
      notes₂.filter (fun n => n.patient_id == p)) :
    extractComorbidityProfile notes₁ p = extractComorbidityProfile notes₂ p ∧
    extractTreatmentModality notes₁ p = extractTreatmentModality notes₂ p ∧
    extractTreatmentTolerance notes₁ p = extractTreatmentTolerance notes₂ p ∧
    extractOutcomeData notes₁ p = extractOutcomeData notes₂ p := by
  obtain ⟨e1, e2, e3, e4, e5, e6⟩ := noteSelectors_congr notes₁ notes₂ p h
  refine ⟨?_, ?_, ?_, ?_⟩
  · simp only [extractComorbidityProfile, e1, e2, e3, e4]
  · simp only [extractTreatmentModality, e6]
  · simp only [extractTreatmentTolerance, e2, e3, e5]
  · simp only [extractOutcomeData, e1, e3]

/-! ## C4: comorbidity flags are keyword rollups over consult notes -/

/-- The hypertension keyword test on one consult note. -/
def hyperPred (n : Note) : Bool :=
  jsIncludes (mhLower n) "hypertension" || jsIncludes (mhLower n) "htn" ||
    jsIncludes (mhLower n) "high blood pressure"

/-- The COPD keyword test on one consult note. -/
def copdPred (n : Note) : Bool :=
  jsIncludes (mhLower n) "copd" || jsIncludes (mhLower n) "chronic obstructive" ||
    jsIncludes (mhLower n) "emphysema"

/-- The diabetes keyword test on one consult note. -/
def diabetesPred (n : Note) : Bool :=
  jsIncludes (mhLower n) "diabetes" || jsIncludes (mhLower n) "dm" ||
    jsIncludes (mhLower n) "diabetic"

/-- The coronary-artery-disease keyword test on one consult note. -/
def cadPred (n : Note) : Bool :=
  jsIncludes (mhLower n) "coronary" || jsIncludes (mhLower n) "cad" ||
    jsIncludes (mhLower n) "heart disease"

/-- The smoking-history keyword test on one consult note. -/
def smokingPred (n : Note) : Bool :=
  jsIncludes (smokingLower n) "former" || jsIncludes (smokingLower n) "current" ||
    jsIncludes (smokingLower n) "smoking"

theorem consultStep_hyp (s : ComorbidityProfile) (n : Note) :
    (consultStep s n).hypertension = (s.hypertension || hyperPred n) := by
  simp [consultStep, hyperPred, Bool.or_assoc]

theorem consultStep_copd (s : ComorbidityProfile) (n : Note) :
    (consultStep s n).copd = (s.copd || copdPred n) := by
  simp [consultStep, copdPred, Bool.or_assoc]

theorem consultStep_diabetes (s : ComorbidityProfile) (n : Note) :
    (consultStep s n).diabetes = (s.diabetes || diabetesPred n) := by
  simp [consultStep, diabetesPred, Bool.or_assoc]

theorem consultStep_cad (s : ComorbidityProfile) (n : Note) :
    (consultStep s n).cad = (s.cad || cadPred n) := by
  simp [consultStep, cadPred, Bool.or_assoc]

theorem consultStep_smoking (s : ComorbidityProfile) (n : Note) :
    (consultStep s n).smokingHistory = (s.smokingHistory || smokingPred n) := by
  simp [consultStep, smokingPred, Bool.or_assoc]

theorem extract_hyp_eq_any (notes : List Note) (p : String) :
    (extractComorbidityProfile notes p).hypertension = (consultNotesOf notes p).any hyperPred := by
  show (List.foldl summaryScoreStep (List.foldl followupScoreStep (List.foldl weeklyScoreStep
      (List.foldl consultStep (initProfile p) (consultNotesOf notes p))
      (weeklyNotesOf notes p)) (followupNotesOf notes p)) (summaryNotesOf notes p)).hypertension
    = (consultNotesOf notes p).any hyperPred
  rw [foldl_preserves summaryScoreStep (fun s => s.hypertension) (fun _ _ => rfl),
      foldl_preserves followupScoreStep (fun s => s.hypertension) (fun _ _ => rfl),
      foldl_preserves weeklyScoreStep (fun s => s.hypertension) (fun _ _ => rfl),
      foldl_proj consultStep (fun s => s.hypertension) (fun b n => b || hyperPred n) consultStep_hyp,
      foldl_or_eq_any]
  simp [initProfile]

theorem extract_copd_eq_any (notes : List Note) (p : String) :
    (extractComorbidityProfile notes p).copd = (consultNotesOf notes p).any copdPred := by
  show (List.foldl summaryScoreStep (List.foldl followupScoreStep (List.foldl weeklyScoreStep
      (List.foldl consultStep (initProfile p) (consultNotesOf notes p))
      (weeklyNotesOf notes p)) (followupNotesOf notes p)) (summaryNotesOf notes p)).copd
    = (consultNotesOf notes p).any copdPred
  rw [foldl_preserves summaryScoreStep (fun s => s.copd) (fun _ _ => rfl),
      foldl_preserves followupScoreStep (fun s => s.copd) (fun _ _ => rfl),
      foldl_preserves weeklyScoreStep (fun s => s.copd) (fun _ _ => rfl),
      foldl_proj consultStep (fun s => s.copd) (fun b n => b || copdPred n) consultStep_copd,
      foldl_or_eq_any]
  simp [initProfile]

theorem extract_diabetes_eq_any (notes : List Note) (p : String) :
    (extractComorbidityProfile notes p).diabetes = (consultNotesOf notes p).any diabetesPred := by
  show (List.foldl summaryScoreStep (List.foldl followupScoreStep (List.foldl weeklyScoreStep
      (List.foldl consultStep (initProfile p) (consultNotesOf notes p))
      (weeklyNotesOf notes p)) (followupNotesOf notes p)) (summaryNotesOf notes p)).diabetes
    = (consultNotesOf notes p).any diabetesPred
  rw [foldl_preserves summaryScoreStep (fun s => s.diabetes) (fun _ _ => rfl),
      foldl_preserves followupScoreStep (fun s => s.diabetes) (fun _ _ => rfl),
      foldl_preserves weeklyScoreStep (fun s => s.diabetes) (fun _ _ => rfl),
      foldl_proj consultStep (fun s => s.diabetes) (fun b n => b || diabetesPred n) consultStep_diabetes,
      foldl_or_eq_any]
  simp [initProfile]

theorem extract_cad_eq_any (notes : List Note) (p : String) :
    (extractComorbidityProfile notes p).cad = (consultNotesOf notes p).any cadPred := by
  show (List.foldl summaryScoreStep (List.foldl followupScoreStep (List.foldl weeklyScoreStep
      (List.foldl consultStep (initProfile p) (consultNotesOf notes p))
      (weeklyNotesOf notes p)) (followupNotesOf notes p)) (summaryNotesOf notes p)).cad
    = (consultNotesOf notes p).any cadPred
  rw [foldl_preserves summaryScoreStep (fun s => s.cad) (fun _ _ => rfl),
      foldl_preserves followupScoreStep (fun s => s.cad) (fun _ _ => rfl),
      foldl_preserves weeklyScoreStep (fun s => s.cad) (fun _ _ => rfl),
      foldl_proj consultStep (fun s => s.cad) (fun b n => b || cadPred n) consultStep_cad,
      foldl_or_eq_any]
  simp [initProfile]

theorem extract_smoking_eq_any (notes : List Note) (p : String) :
    (extractComorbidityProfile notes p).smokingHistory
      = (consultNotesOf notes p).any smokingPred := by
  show (List.foldl summaryScoreStep (List.foldl followupScoreStep (List.foldl weeklyScoreStep
      (List.foldl consultStep (initProfile p) (consultNotesOf notes p))
      (weeklyNotesOf notes p)) (followupNotesOf notes p)) (summaryNotesOf notes p)).smokingHistory
    = (consultNotesOf notes p).any smokingPred
  rw [foldl_preserves summaryScoreStep (fun s => s.smokingHistory) (fun _ _ => rfl),
      foldl_preserves followupScoreStep (fun s => s.smokingHistory) (fun _ _ => rfl),
      foldl_preserves weeklyScoreStep (fun s => s.smokingHistory) (fun _ _ => rfl),
      foldl_proj consultStep (fun s => s.smokingHistory)
        (fun b n => b || smokingPred n) consultStep_smoking,
      foldl_or_eq_any]
  simp [initProfile]

/-- C4: the five comorbidity booleans are exactly the keyword rollups over
the patient's consult notes (`mhLower n` is the note's joined, lowercased
medical-history text; `smokingLower n` its lowercased smoking status;
`l₁ <:+: l₂` is substring occurrence). -/
theorem comorbidity_flags_are_keyword_rollups (notes : List Note) (p : String) :
    ((extractComorbidityProfile notes p).hypertension = true ↔
      ∃ n ∈ consultNotesOf notes p,
        "hypertension".data <:+: (mhLower n).data ∨ "htn".data <:+: (mhLower n).data ∨
          "high blood pressure".data <:+: (mhLower n).data) ∧
    ((extractComorbidityProfile notes p).copd = true ↔
      ∃ n ∈ consultNotesOf notes p,
        "copd".data <:+: (mhLower n).data ∨ "chronic obstructive".data <:+: (mhLower n).data ∨
          "emphysema".data <:+: (mhLower n).data) ∧
    ((extractComorbidityProfile notes p).diabetes = true ↔
      ∃ n ∈ consultNotesOf notes p,
        "diabetes".data <:+: (mhLower n).data ∨ "dm".data <:+: (mhLower n).data ∨
          "diabetic".data <:+: (mhLower n).data) ∧
    ((extractComorbidityProfile notes p).cad = true ↔
      ∃ n ∈ consultNotesOf notes p,
        "coronary".data <:+: (mhLower n).data ∨ "cad".data <:+: (mhLower n).data ∨
          "heart disease".data <:+: (mhLower n).data) ∧
    ((extractComorbidityProfile notes p).smokingHistory = true ↔
      ∃ n ∈ consultNotesOf notes p,
        "former".data <:+: (smokingLower n).data ∨ "current".data <:+: (smokingLower n).data ∨
          "smoking".data <:+: (smokingLower n).data) := by
  refine ⟨?_, ?_, ?_, ?_, ?_⟩
  · rw [extract_hyp_eq_any, List.any_eq_true]
    simp only [hyperPred, Bool.or_eq_true, jsIncludes_iff, or_assoc]
  · rw [extract_copd_eq_any, List.any_eq_true]
    simp only [copdPred, Bool.or_eq_true, jsIncludes_iff, or_assoc]
  · rw [extract_diabetes_eq_any, List.any_eq_true]
    simp only [diabetesPred, Bool.or_eq_true, jsIncludes_iff, or_assoc]
  · rw [extract_cad_eq_any, List.any_eq_true]
    simp only [cadPred, Bool.or_eq_true, jsIncludes_iff, or_assoc]
  · rw [extract_smoking_eq_any, List.any_eq_true]
    simp only [smokingPred, Bool.or_eq_true, jsIncludes_iff, or_assoc]

/-! ## C7: treatment tolerance -/

/-- The interruption keyword test on one daily-treatment note's lowercased
description. -/
def interruptPred (n : Note) : Bool :=
  jsIncludes (descLowerOf n) "interrupt" || jsIncludes (descLowerOf n) "delay" ||
    jsIncludes (descLowerOf n) "break" || jsIncludes (descLowerOf n) "hold"

/-- One step of the running maximum of parsed toxicity grades. -/
def gradeStep (g : Int) (n : Note) : Int :=
  match toxGradeOf n with
  | some v => max g v
  | none => g

/-- The maximum parsed toxicity grade over a list of notes, starting from
the code's initial accumulator `0`. -/
def maxParsedGrade (l : List Note) : Int := l.foldl gradeStep 0

theorem dailyStep_interruptions (s : ToleranceState) (n : Note) :
    (dailyStep s n).interruptions =
      (if interruptPred n then s.interruptions + 1 else s.interruptions) := by
  rcases h : toxGradeOf n with - | g <;>
    simp only [dailyStep, interruptPred, h] <;> split_ifs <;> rfl

theorem dailyStep_grade (s : ToleranceState) (n : Note) :
    (dailyStep s n).toxicityGrade = gradeStep s.toxicityGrade n := by
  rcases h : toxGradeOf n with - | g <;>
    simp only [dailyStep, gradeStep, h] <;> split_ifs <;> rfl

theorem rosStep_interruptions (d : Nat) (st : ToleranceState) (kv : String × Option String) :
    (rosStep d st kv).interruptions = st.interruptions := by
  rcases kv with ⟨k, - | v⟩ <;> simp only [rosStep] <;> split_ifs <;> rfl

theorem rosStep_grade (d : Nat) (st : ToleranceState) (kv : String × Option String) :
    (rosStep d st kv).toxicityGrade = st.toxicityGrade := by
  rcases kv with ⟨k, - | v⟩ <;> simp only [rosStep] <;> split_ifs <;> rfl

theorem weeklyTolStep_interruptions (s : ToleranceState) (n : Note) :
    (weeklyTolStep s n).interruptions = s.interruptions := by
  simp only [weeklyTolStep]
  rw [foldl_preserves (rosStep n.creation) (fun st => st.interruptions)
    (rosStep_interruptions n.creation)]
  split_ifs <;> rfl

theorem weeklyTolStep_grade (s : ToleranceState) (n : Note) :
    (weeklyTolStep s n).toxicityGrade = s.toxicityGrade := by
  simp only [weeklyTolStep]
  rw [foldl_preserves (rosStep n.creation) (fun st => st.toxicityGrade)
    (rosStep_grade n.creation)]
  split_ifs <;> rfl

theorem followupTolStep_interruptions (s : ToleranceState) (n : Note) :
    (followupTolStep s n).interruptions = s.interruptions := by
  simp only [followupTolStep]; split_ifs <;> rfl

theorem followupTolStep_grade (s : ToleranceState) (n : Note) :
    (followupTolStep s n).toxicityGrade = s.toxicityGrade := by
  simp only [followupTolStep]; split_ifs <;> rfl

theorem tolerance_interruptions_eq_countP (notes : List Note) (p : String) :
    (extractTreatmentTolerance notes p).interruptions =
      (dailyNotesOf notes p).countP interruptPred := by
  show (List.foldl followupTolStep (List.foldl weeklyTolStep
      (List.foldl dailyStep ⟨0, false, 0, [], []⟩ (dailyNotesOf notes p))
      (weeklyNotesOf notes p)) (followupNotesOf notes p)).interruptions
    = (dailyNotesOf notes p).countP interruptPred
  rw [foldl_preserves followupTolStep (fun s => s.interruptions) followupTolStep_interruptions,
      foldl_preserves weeklyTolStep (fun s => s.interruptions) weeklyTolStep_interruptions,
      foldl_proj dailyStep (fun s => s.interruptions)
        (fun c n => if interruptPred n then c + 1 else c) dailyStep_interruptions,
      foldl_count_eq_countP]
  simp

theorem extract_toxicity_option (notes : List Note) (p : String) :
    (extractTreatmentTolerance notes p).toxicityGrade =
      (if maxParsedGrade (dailyNotesOf notes p) > 0
        then some (maxParsedGrade (dailyNotesOf notes p)) else none) := by
  have hg : (List.foldl followupTolStep (List.foldl weeklyTolStep
      (List.foldl dailyStep ⟨0, false, 0, [], []⟩ (dailyNotesOf notes p))
      (weeklyNotesOf notes p)) (followupNotesOf notes p)).toxicityGrade
      = maxParsedGrade (dailyNotesOf notes p) := by
    rw [foldl_preserves followupTolStep (fun s => s.toxicityGrade) followupTolStep_grade,
        foldl_preserves weeklyTolStep (fun s => s.toxicityGrade) weeklyTolStep_grade,
        foldl_proj dailyStep (fun s => s.toxicityGrade) gradeStep dailyStep_grade]
    rfl
  show (if (List.foldl followupTolStep (List.foldl weeklyTolStep
      (List.foldl dailyStep ⟨0, false, 0, [], []⟩ (dailyNotesOf notes p))
      (weeklyNotesOf notes p)) (followupNotesOf notes p)).toxicityGrade > 0
    then some (List.foldl followupTolStep (List.foldl weeklyTolStep
      (List.foldl dailyStep ⟨0, false, 0, [], []⟩ (dailyNotesOf notes p))
      (weeklyNotesOf notes p)) (followupNotesOf notes p)).toxicityGrade else none) = _
  rw [hg]

theorem maxParsedGrade_nonneg (l : List Note) : 0 ≤ maxParsedGrade l := by
  have h : ∀ (l : List Note) (g : Int), g ≤ l.foldl gradeStep g := by
    intro l
    induction l with
    | nil => intro g; exact le_refl g
    | cons a l ih =>
      intro g
      refine le_trans ?_ (ih (gradeStep g a))
      rcases ha : toxGradeOf a with - | v <;> simp [gradeStep, ha, le_max_left]
  exact h l 0

/-- C7: `interruptions` counts the patient's daily-treatment notes whose
description mentions an interruption keyword; `completedTreatment` is the
`< 3` threshold on that count; `toxicityGrade` is reported iff the running
maximum of parsed grades (started at 0) is nonzero. -/
theorem tolerance_rollups (notes : List Note) (p : String) :
    (extractTreatmentTolerance notes p).interruptions =
      ((dailyNotesOf notes p).filter interruptPred).length ∧
    ((extractTreatmentTolerance notes p).completedTreatment = true ↔
      (extractTreatmentTolerance notes p).interruptions < 3) ∧
    ((extractTreatmentTolerance notes p).toxicityGrade = none ↔
      maxParsedGrade (dailyNotesOf notes p) = 0) := by
  refine ⟨?_, ?_, ?_⟩
  · rw [tolerance_interruptions_eq_countP, List.countP_eq_length_filter]
  · exact decide_eq_true_iff
  · rw [extract_toxicity_option]
    have hn := maxParsedGrade_nonneg (dailyNotesOf notes p)
    split_ifs with h
    · simp only [reduceCtorEq, false_iff]
      omega
    · simp only [true_iff]
      omega

/-! ## C6: outcome data comes from the latest follow-up note -/

theorem firstMaxByCreation_eq_none_iff (l : List Note) :
    firstMaxByCreation l = none ↔ l = [] := by
  cases l with
  | nil => simp [firstMaxByCreation]
  | cons n ns =>
    rcases h : firstMaxByCreation ns with - | m <;>
      simp [firstMaxByCreation, h] <;> split_ifs <;> simp

theorem firstMinByCreation_eq_none_iff (l : List Note) :
    firstMinByCreation l = none ↔ l = [] := by
  cases l with
  | nil => simp [firstMinByCreation]
  | cons n ns =>
    rcases h : firstMinByCreation ns with - | m <;>
      simp [firstMinByCreation, h] <;> split_ifs <;> simp

theorem firstMaxByCreation_spec (l : List Note) :
    ∀ m, firstMaxByCreation l = some m → m ∈ l ∧ ∀ x ∈ l, x.creation ≤ m.creation := by
  induction l with
  | nil => intro m h; simp [firstMaxByCreation] at h
  | cons n ns ih =>
    intro m h
    rcases hr : firstMaxByCreation ns with - | m'
    · have hns : ns = [] := (firstMaxByCreation_eq_none_iff ns).mp hr
      subst hns
      simp only [firstMaxByCreation] at h
      cases h
      simp
    · obtain ⟨hmem, hmax⟩ := ih m' hr
      simp only [firstMaxByCreation, hr] at h
      split_ifs at h with hgt
      · cases h
        refine ⟨List.mem_cons_of_mem n hmem, ?_⟩
        intro x hx
        rcases List.mem_cons.mp hx with hx | hx
        · subst hx; omega
        · exact hmax x hx
      · cases h
        refine ⟨List.mem_cons_self n ns, ?_⟩
        intro x hx
        rcases List.mem_cons.mp hx with hx | hx
        · subst hx; omega
        · have := hmax x hx; omega

/-- `disease_status` mentions "ned" or "no evidence". -/
def localControlOf (n : Note) : Bool :=
  jsIncludes (jsToLower (diseaseStatusOf n)) "ned" ||
    jsIncludes (jsToLower (diseaseStatusOf n)) "no evidence"

/-- `disease_status` mentions "recurrence" or "progression". -/
def recurrenceOf (n : Note) : Bool :=
  jsIncludes (jsToLower (diseaseStatusOf n)) "recurrence" ||
    jsIncludes (jsToLower (diseaseStatusOf n)) "progression"

/-- `side_effects` mentions "chronic" or "persistent". -/
def lateToxicityOf (n : Note) : Bool :=
  jsIncludes (jsToLower (sideEffectsOf n)) "chronic" ||
    jsIncludes (jsToLower (sideEffectsOf n)) "persistent"

/-- `side_effects` mentions "severe" or "grade 3". -/
def grade3ToxicityOf (n : Note) : Bool :=
  jsIncludes (jsToLower (sideEffectsOf n)) "severe" ||
    jsIncludes (jsToLower (sideEffectsOf n)) "grade 3"

/-- C6: with no follow-up notes `extractOutcomeData` returns the all-false
default without `survivalMonths`; otherwise the outcome booleans come from
a follow-up note with maximal creation date, and `survivalMonths` is
present iff the patient also has a consult note. -/
theorem outcome_from_latest_followup (notes : List Note) (p : String) :
    (followupNotesOf notes p = [] →
      extractOutcomeData notes p = ⟨p, false, false, none, false, false⟩) ∧
    (followupNotesOf notes p ≠ [] →
      ∃ latest ∈ followupNotesOf notes p,
        (∀ m ∈ followupNotesOf notes p, m.creation ≤ latest.creation) ∧
        (extractOutcomeData notes p).localControl = localControlOf latest ∧
        (extractOutcomeData notes p).recurrence = recurrenceOf latest ∧
        (extractOutcomeData notes p).lateToxicity = lateToxicityOf latest ∧
        (extractOutcomeData notes p).grade3Toxicity = grade3ToxicityOf latest ∧
        ((extractOutcomeData notes p).survivalMonths.isSome ↔
          consultNotesOf notes p ≠ [])) := by
  constructor
  · intro h
    simp only [extractOutcomeData, h, firstMaxByCreation]
  · intro h
    obtain ⟨latest, hl⟩ : ∃ m, firstMaxByCreation (followupNotesOf notes p) = some m := by
      rcases he : firstMaxByCreation (followupNotesOf notes p) with - | m
      · exact absurd ((firstMaxByCreation_eq_none_iff _).mp he) h
      · exact ⟨m, rfl⟩
    obtain ⟨hmem, hmax⟩ := firstMaxByCreation_spec _ latest hl
    refine ⟨latest, hmem, hmax, ?_, ?_, ?_, ?_, ?_⟩ <;> simp only [extractOutcomeData, hl]
    · rfl
    · rfl
    · rfl
    · rfl
    · rcases hc : firstMinByCreation (consultNotesOf notes p) with - | ft
      · have h0 := (firstMinByCreation_eq_none_iff _).mp hc
        simp [hc, h0]
      · have hne : consultNotesOf notes p ≠ [] := by
          intro h0
          rw [h0] at hc
          simp [firstMinByCreation] at hc
        simp [hc, hne]

/-! ## C1: generatePatientAnalytics groups by patient id -/

/-- Recursive form of `dedupFirst` used for reasoning, with an explicit
seen-set accumulator. -/
def dedupFirstAux (seen : List String) : List String → List String
  | [] => []
  | x :: xs => if x ∈ seen then dedupFirstAux seen xs else x :: dedupFirstAux (seen ++ [x]) xs

theorem foldl_insertNew_eq (l : List String) :
    ∀ seen, l.foldl insertNew seen = seen ++ dedupFirstAux seen l := by
  induction l with
  | nil => intro seen; simp [dedupFirstAux]
  | cons x xs ih =>
    intro seen
    by_cases hx : x ∈ seen
    · simp [List.foldl_cons, insertNew, dedupFirstAux, hx, ih]
    · simp only [List.foldl_cons, insertNew, dedupFirstAux, if_neg hx, ih (seen ++ [x])]
      simp

theorem dedupFirst_eq (l : List String) : dedupFirst l = dedupFirstAux [] l := by
  simp [dedupFirst, foldl_insertNew_eq l []]

theorem mem_dedupFirstAux (x : String) (l : List String) :
    ∀ seen, x ∈ dedupFirstAux seen l ↔ x ∈ l ∧ x ∉ seen := by
  induction l with
  | nil => intro seen; simp [dedupFirstAux]
  | cons a as ih =>
    intro seen
    by_cases ha : a ∈ seen
    · rw [dedupFirstAux, if_pos ha, ih seen]
      simp only [List.mem_cons]
      constructor
      · rintro ⟨h1, h2⟩; exact ⟨Or.inr h1, h2⟩
      · rintro ⟨h1 | h1, h2⟩
        · subst h1; exact absurd ha h2
        · exact ⟨h1, h2⟩
    · rw [dedupFirstAux, if_neg ha]
      simp only [List.mem_cons, ih (seen ++ [a]), List.mem_append, List.mem_singleton]
      by_cases hxa : x = a
      · subst hxa; simp [ha]
      · simp [hxa]

theorem nodup_dedupFirstAux (l : List String) :
    ∀ seen, (dedupFirstAux seen l).Nodup := by
  induction l with
  | nil => intro seen; simp [dedupFirstAux]
  | cons a as ih =>
    intro seen
    by_cases ha : a ∈ seen
    · rw [dedupFirstAux, if_pos ha]; exact ih seen
    · rw [dedupFirstAux, if_neg ha]
      refine List.nodup_cons.mpr ⟨?_, ih (seen ++ [a])⟩
      intro hmem
      have hx := (mem_dedupFirstAux a as (seen ++ [a])).mp hmem
      exact hx.2 (by simp)

theorem dedupFirstAux_pairwise (l : List String) :
    ∀ seen, (dedupFirstAux seen l).Pairwise
      (fun x y => l.indexOf x < l.indexOf y) := by
  induction l with
  | nil => intro seen; simp [dedupFirstAux]
  | cons a as ih =>
    intro seen
    by_cases ha : a ∈ seen
    · rw [dedupFirstAux, if_pos ha]
      refine (ih seen).imp_of_mem ?_
      intro x y hx hy hr
      have hxm := (mem_dedupFirstAux x as seen).mp hx
      have hym := (mem_dedupFirstAux y as seen).mp hy
      have hax : a ≠ x := fun he => hxm.2 (he ▸ ha)
      have hay : a ≠ y := fun he => hym.2 (he ▸ ha)
      rw [List.indexOf_cons_ne as hax, List.indexOf_cons_ne as hay]
      omega
    · rw [dedupFirstAux, if_neg ha]
      rw [List.pairwise_cons]
      constructor
      · intro y hy
        have hym := (mem_dedupFirstAux y as (seen ++ [a])).mp hy
        have hay : a ≠ y := fun he => hym.2 (by simp [he])
        rw [List.indexOf_cons_self, List.indexOf_cons_ne as hay]
        exact Nat.succ_pos _
      · refine (ih (seen ++ [a])).imp_of_mem ?_
        intro x y hx hy hr
        have hxm := (mem_dedupFirstAux x as (seen ++ [a])).mp hx
        have hym := (mem_dedupFirstAux y as (seen ++ [a])).mp hy
        have hax : a ≠ x := fun he => hxm.2 (by simp [he])
        have hay : a ≠ y := fun he => hym.2 (by simp [he])
        rw [List.indexOf_cons_ne as hax, List.indexOf_cons_ne as hay]
        omega

theorem generatePatientAnalytics_ids (notes : List Note) :
    (generatePatientAnalytics notes).map (·.patientId) =
      dedupFirst (notes.map (·.patient_id)) := by
  simp only [generatePatientAnalytics, List.map_map]
  exact List.map_id _

/-- C1: `generatePatientAnalytics` returns one entry per distinct
`patient_id` (no duplicates, all and only the ids occurring in the notes,
ordered by first occurrence, `indexOf` being the first-occurrence index),
and every entry's components are the four extraction functions applied to
that id over the same notes. -/
theorem generatePatientAnalytics_groups_by_patient (notes : List Note) :
    ((generatePatientAnalytics notes).map (·.patientId)).Nodup ∧
    (∀ q : String, q ∈ (generatePatientAnalytics notes).map (·.patientId) ↔
      q ∈ notes.map (·.patient_id)) ∧
    ((generatePatientAnalytics notes).map (·.patientId)).Pairwise
      (fun x y => (notes.map (·.patient_id)).indexOf x <
        (notes.map (·.patient_id)).indexOf y) ∧
    (∀ e ∈ generatePatientAnalytics notes,
      e.comorbidities = extractComorbidityProfile notes e.patientId ∧
      e.treatment = extractTreatmentModality notes e.patientId ∧
      e.tolerance = extractTreatmentTolerance notes e.patientId ∧
      e.outcomes = extractOutcomeData notes e.patientId) := by
  refine ⟨?_, ?_, ?_, ?_⟩
  · rw [generatePatientAnalytics_ids, dedupFirst_eq]
    exact nodup_dedupFirstAux _ []
  · intro q
    rw [generatePatientAnalytics_ids, dedupFirst_eq, mem_dedupFirstAux]
    simp
  · rw [generatePatientAnalytics_ids, dedupFirst_eq]
    exact dedupFirstAux_pairwise _ []
  · intro e he
    simp only [generatePatientAnalytics, List.mem_map] at he
    obtain ⟨pid, hpid, he⟩ := he
    subst he
    exact ⟨rfl, rfl, rfl, rfl⟩

/-! ## C10: quality-measure header counts -/

/-- A measure counts as passed. -/
def qmPassB (m : QualityMeasure) : Bool := qmOutcomeLower m == some "pass"

/-- A measure counts as failed. -/
def qmFailB (m : QualityMeasure) : Bool := qmOutcomeLower m == some "fail"

/-- A measure counts as excluded (any of the three spellings). -/
def qmExclB (m : QualityMeasure) : Bool :=
  qmOutcomeLower m == some "exclusion" || qmOutcomeLower m == some "excluded" ||
    qmOutcomeLower m == some "exclude"

theorem qm_atMostOne (m : QualityMeasure) :
    ¬(qmPassB m = true ∧ qmFailB m = true) ∧ ¬(qmPassB m = true ∧ qmExclB m = true) ∧
      ¬(qmFailB m = true ∧ qmExclB m = true) := by
  simp only [qmPassB, qmFailB, qmExclB, beq_iff_eq, Bool.or_eq_true]
  rcases h : qmOutcomeLower m with - | s
  · simp [h]
  · simp only [h, Option.some.injEq]
    refine ⟨?_, ?_, ?_⟩
    · rintro ⟨rfl, h2⟩
      revert h2
      decide
    · rintro ⟨rfl, (h2 | h2) | h2⟩ <;> revert h2 <;> decide
    · rintro ⟨rfl, (h2 | h2) | h2⟩ <;> revert h2 <;> decide

theorem qm_ite_bound (m : QualityMeasure) :
    (if qmPassB m then 1 else 0) + (if qmFailB m then 1 else 0) +
      (if qmExclB m then 1 else 0) ≤ 1 := by
  have h := qm_atMostOne m
  cases hp : qmPassB m <;> cases hf : qmFailB m <;> cases he : qmExclB m <;>
    simp [hp, hf, he] at h ⊢

theorem countP_three_disjoint {α : Type} (p q r : α → Bool)
    (h : ∀ x, (if p x then 1 else 0) + (if q x then 1 else 0) + (if r x then 1 else 0) ≤ 1) :
    ∀ l : List α, l.countP p + l.countP q + l.countP r ≤ l.length := by
  intro l
  induction l with
  | nil => simp
  | cons a l ih =>
    have ha := h a
    cases hp : p a <;> cases hq : q a <;> cases hr : r a <;>
      simp only [hp, hq, hr, if_true, if_false, List.countP_cons, List.length_cons] at ha ⊢ <;>
      omega

/-- C10: each measure is counted in at most one of passed/failed/excluded,
and the three counts never sum to more than the number of measures. -/
theorem qualityMeasuresCounts_classification (measures : List QualityMeasure) :
    (∀ m ∈ measures,
      ¬(qmPassB m = true ∧ qmFailB m = true) ∧ ¬(qmPassB m = true ∧ qmExclB m = true) ∧
        ¬(qmFailB m = true ∧ qmExclB m = true)) ∧
    (qualityMeasuresCounts measures).1 + (qualityMeasuresCounts measures).2.1 +
      (qualityMeasuresCounts measures).2.2 ≤ measures.length := by
  constructor
  · intro m _
    exact qm_atMostOne m
  · show (measures.filter _).length + (measures.filter _).length +
      (measures.filter _).length ≤ measures.length
    rw [← List.countP_eq_length_filter, ← List.countP_eq_length_filter,
      ← List.countP_eq_length_filter]
    exact countP_three_disjoint _ _ _ qm_ite_bound measures

/-! ## C3: filterPatientCohort -/

/-- The age filter in positive form: vacuously true when no range is
given or the patient's age is missing or zero. -/
def agePass (f : CohortFilters) (p : PatientAnalytics) : Bool :=
  match f.ageRange, p.comorbidities.age with
  | some r, some a => if a != 0 then decide (r.min ≤ a) && decide (a ≤ r.max) else true
  | _, _ => true

/-- The treatment-type filter in positive form: vacuously true when the
list is absent or empty. -/
def treatPass (f : CohortFilters) (p : PatientAnalytics) : Bool :=
  match f.treatmentTypes with
  | some ts => if ts.length > 0 then ts.contains p.treatment.treatmentType else true
  | none => true

/-- The comorbidity filter in positive form: vacuously true when the list
is absent or empty; an unrecognised name fails. -/
def comorbPass (f : CohortFilters) (p : PatientAnalytics) : Bool :=
  match f.comorbidities with
  | some cs => if cs.length > 0 then cs.all (comorbidityFlag p) else true
  | none => true

/-- The ECOG filter in positive form: vacuously true when no range is
given or the patient has no recorded ECOG scores; otherwise bounds the
last recorded score. -/
def ecogPass (f : CohortFilters) (p : PatientAnalytics) : Bool :=
  match f.ecogRange with
  | some r =>
    if p.comorbidities.ecogScores.length > 0 then
      match p.comorbidities.ecogScores.getLast? with
      | some e => decide (r.min ≤ e.value) && decide (e.value ≤ r.max)
      | none => true
    else true
  | none => true

theorem ageFail_eq (f : CohortFilters) (p : PatientAnalytics) :
    ageFail f p = !agePass f p := by
  simp only [ageFail, agePass]
  rcases hr : f.ageRange with - | r <;> rcases ha : p.comorbidities.age with - | a
  · rfl
  · rfl
  · rfl
  · by_cases h0 : a != 0
    · simp only [if_pos h0, ← Bool.decide_or, ← Bool.decide_and, ← decide_not]
      rw [decide_eq_decide]
      omega
    · simp [h0]

theorem treatFail_eq (f : CohortFilters) (p : PatientAnalytics) :
    treatFail f p = !treatPass f p := by
  simp only [treatFail, treatPass]
  rcases ht : f.treatmentTypes with - | ts <;> simp only []
  · rfl
  · by_cases h : ts.length > 0 <;> simp [h]

theorem comorbFail_eq (f : CohortFilters) (p : PatientAnalytics) :
    comorbFail f p = !comorbPass f p := by
  simp only [comorbFail, comorbPass]
  rcases hc : f.comorbidities with - | cs <;> simp only []
  · rfl
  · by_cases h : cs.length > 0 <;> simp [h]

theorem ecogFail_eq (f : CohortFilters) (p : PatientAnalytics) :
    ecogFail f p = !ecogPass f p := by
  simp only [ecogFail, ecogPass]
  rcases he : f.ecogRange with - | r <;> simp only []
  · rfl
  · by_cases h : p.comorbidities.ecogScores.length > 0
    · simp only [if_pos h]
      rcases hl : p.comorbidities.ecogScores.getLast? with - | e <;> simp only []
      · rfl
      · simp only [← Bool.decide_or, ← Bool.decide_and, ← decide_not]
        rw [decide_eq_decide]
        omega
    · simp [h]

theorem cohortPred_eq (f : CohortFilters) (p : PatientAnalytics) :
    cohortPred f p = (agePass f p && treatPass f p && comorbPass f p && ecogPass f p) := by
  rw [cohortPred, ageFail_eq, treatFail_eq, comorbFail_eq, ecogFail_eq]
  cases agePass f p <;> cases treatPass f p <;> cases comorbPass f p <;>
    cases ecogPass f p <;> rfl

/-- C3 (amended): `filterPatientCohort` keeps exactly the entries passing
the conjunction of the four vacuously-true-when-inapplicable filters, its
result is a subsequence of the input's patient ids, and with no filters
every id is returned. -/
theorem filterPatientCohort_conjunction (analytics : List PatientAnalytics)
    (f : CohortFilters) :
    filterPatientCohort analytics f =
      (analytics.filter (fun p =>
        agePass f p && treatPass f p && comorbPass f p && ecogPass f p)).map (·.patientId) ∧
    (filterPatientCohort analytics f).Sublist (analytics.map (·.patientId)) ∧
    filterPatientCohort analytics ⟨none, none, none, none, none⟩ =
      analytics.map (·.patientId) := by
  refine ⟨?_, ?_, ?_⟩
  · simp only [filterPatientCohort]
    congr 1
    exact List.filter_congr (fun p _ => cohortPred_eq f p)
  · exact (List.filter_sublist analytics).map _
  · simp only [filterPatientCohort]
    have h : List.filter (cohortPred ⟨none, none, none, none, none⟩) analytics = analytics :=
      List.filter_eq_self.mpr (fun p _ => rfl)
    rw [h]

/-- An analytics entry whose profile has no age (its comorbidity profile
is the empty initial profile). -/
def cexEntry : PatientAnalytics :=
  ⟨"p1", initProfile "p1", ⟨"p1", "Unknown", none, none, none⟩,
    ⟨"p1", 0, false, none, true, [], []⟩, ⟨"p1", false, false, none, false, false⟩⟩

/-- A cohort filter requiring ages between 10 and 20. -/
def cexFilters : CohortFilters := { ageRange := some ⟨10, 20⟩ }

/-- C3 counterexample: with an age filter 10–20 supplied, the code keeps a
patient whose profile has no age at all, although such a patient does not
satisfy the claimed predicate "age inside ageRange". -/
theorem filterPatientCohort_keeps_ageless_patient :
    filterPatientCohort [cexEntry] cexFilters = ["p1"] ∧
    ¬ ∃ a : Int, cexEntry.comorbidities.age = some a ∧ 10 ≤ a ∧ a ≤ 20 := by
  constructor
  · rfl
  · rintro ⟨a, ha, -⟩
    simp [cexEntry, initProfile] at ha

/-! ## C5: generateInsights -/

theorem getGroup_addGroup {α : Type} (k k' : String) (x : α) :
    ∀ acc : List (String × List α),
      getGroup k (addGroup k' x acc) =
        if k' == k then getGroup k acc ++ [x] else getGroup k acc := by
  intro acc
  induction acc with
  | nil => cases h : (k' == k) <;> simp [addGroup, getGroup, h]
  | cons hd tl ih =>
    rcases hd with ⟨k₀, v₀⟩
    by_cases h0 : k₀ = k'
    · subst h0
      cases hk : (k₀ == k) <;> simp [addGroup, getGroup, hk]
    · have h0' : (k₀ == k') = false := beq_false_of_ne h0
      cases hk : (k₀ == k)
      · simp [addGroup, getGroup, h0', hk, ih]
      · have hk' : (k' == k) = false := by
          refine beq_false_of_ne (fun he => h0 ?_)
          rw [beq_iff_eq] at hk
          rw [hk, he]
        simp [addGroup, getGroup, h0', hk, hk']

theorem getGroup_foldl {α : Type} (key : α → String) (k : String) :
    ∀ (l : List α) (acc : List (String × List α)),
      getGroup k (l.foldl (fun acc x => addGroup (key x) x acc) acc) =
        getGroup k acc ++ l.filter (fun x => key x == k) := by
  intro l
  induction l with
  | nil => intro acc; simp
  | cons a as ih =>
    intro acc
    simp only [List.foldl_cons, ih, getGroup_addGroup, List.filter_cons]
    cases h : (key a == k) <;> simp [h]

theorem getGroup_groupFold {α : Type} (key : α → String) (k : String) (l : List α) :
    getGroup k (groupFold key l) = l.filter (fun x => key x == k) := by
  rw [groupFold, getGroup_foldl]
  rfl

/-- Appending a fixed suffix to a string is injective, computed through a
given split of the target. -/
theorem append_eq_iff_of_split {t c k pre : String} (hck : k.data = pre.data ++ c.data) :
    (t ++ c = k) ↔ t = pre := by
  constructor
  · intro h
    have hd : t.data ++ c.data = pre.data ++ c.data := by
      have hh := congrArg String.data h
      rwa [String.data_append, hck] at hh
    have hlen : t.data.length = pre.data.length := by
      have hl := congrArg List.length hd
      simp only [List.length_append] at hl
      omega
    exact String.ext (List.append_inj hd hlen).1
  · rintro rfl
    exact String.ext (by rw [String.data_append, hck])

/-- A string cannot end in `c` and equal `k` when `k` does not end in
`c`. -/
theorem append_ne_of_suffix_ne {c k : String} (hlen : c.data.length ≤ k.data.length)
    (hsuf : k.data.drop (k.data.length - c.data.length) ≠ c.data) (t : String) :
    t ++ c ≠ k := by
  intro h
  have hd : t.data ++ c.data = k.data := by
    have hh := congrArg String.data h
    rwa [String.data_append] at hh
  have hl : t.data.length = k.data.length - c.data.length := by
    have hh := congrArg List.length hd
    simp only [List.length_append] at hh
    omega
  apply hsuf
  rw [← hd]
  have h2 : (t.data ++ c.data).length - c.data.length = t.data.length := by simp
  rw [h2, List.drop_left]

theorem copdKey_eq_sbrt (p : PatientAnalytics) :
    (copdKey p == "SBRT_COPD") = (p.treatment.treatmentType == "SBRT" && p.comorbidities.copd) := by
  cases hc : p.comorbidities.copd
  · have hne : (p.treatment.treatmentType ++ "_") ++ "NoCOPD" ≠ "SBRT_COPD" :=
      append_ne_of_suffix_ne (by decide) (by decide) _
    simp [copdKey, hc, hne]
  · have hiff : ((p.treatment.treatmentType ++ "_") ++ "COPD" = "SBRT_COPD") ↔
        p.treatment.treatmentType = "SBRT" := by
      rw [@append_eq_iff_of_split (p.treatment.treatmentType ++ "_") "COPD" "SBRT_COPD" "SBRT_"
        (by decide)]
      exact @append_eq_iff_of_split p.treatment.treatmentType "_" "SBRT_" "SBRT" (by decide)
    rw [Bool.eq_iff_iff]
    simp [copdKey, hc, hiff]

theorem copdKey_eq_imrt (p : PatientAnalytics) :
    (copdKey p == "IMRT_COPD") = (p.treatment.treatmentType == "IMRT" && p.comorbidities.copd) := by
  cases hc : p.comorbidities.copd
  · have hne : (p.treatment.treatmentType ++ "_") ++ "NoCOPD" ≠ "IMRT_COPD" :=
      append_ne_of_suffix_ne (by decide) (by decide) _
    simp [copdKey, hc, hne]
  · have hiff : ((p.treatment.treatmentType ++ "_") ++ "COPD" = "IMRT_COPD") ↔
        p.treatment.treatmentType = "IMRT" := by
      rw [@append_eq_iff_of_split (p.treatment.treatmentType ++ "_") "COPD" "IMRT_COPD" "IMRT_"
        (by decide)]
      exact @append_eq_iff_of_split p.treatment.treatmentType "_" "IMRT_" "IMRT" (by decide)
    rw [Bool.eq_iff_iff]
    simp [copdKey, hc, hiff]

/-- The SBRT-with-COPD cohort. -/
def sbrtCopdOf (analytics : List PatientAnalytics) : List PatientAnalytics :=
  analytics.filter fun p => p.treatment.treatmentType == "SBRT" && p.comorbidities.copd

/-- The IMRT-with-COPD cohort. -/
def imrtCopdOf (analytics : List PatientAnalytics) : List PatientAnalytics :=
  analytics.filter fun p => p.treatment.treatmentType == "IMRT" && p.comorbidities.copd

/-- The diabetic cohort. -/
def diabeticsOf (analytics : List PatientAnalytics) : List PatientAnalytics :=
  analytics.filter (·.comorbidities.diabetes)

/-- The non-diabetic cohort. -/
def nonDiabeticsOf (analytics : List PatientAnalytics) : List PatientAnalytics :=
  analytics.filter fun p => !p.comorbidities.diabetes

theorem sbrt_group_eq (analytics : List PatientAnalytics) :
    getGroup "SBRT_COPD" (groupFold copdKey analytics) = sbrtCopdOf analytics := by
  rw [getGroup_groupFold]
  exact List.filter_congr (fun p _ => copdKey_eq_sbrt p)

theorem imrt_group_eq (analytics : List PatientAnalytics) :
    getGroup "IMRT_COPD" (groupFold copdKey analytics) = imrtCopdOf analytics := by
  rw [getGroup_groupFold]
  exact List.filter_congr (fun p _ => copdKey_eq_imrt p)

/-- The COPD insight string, expressed over the directly-filtered
cohorts. -/
def copdInsightMsg (analytics : List PatientAnalytics) : String :=
  let s := avgInterruptions (sbrtCopdOf analytics)
  let i := avgInterruptions (imrtCopdOf analytics)
  "Among patients with COPD, " ++ (if s < i then "SBRT" else "IMRT") ++ " had " ++
    ratToFixed1 |s - i| ++ " fewer treatment interruptions on average."

/-- The diabetes insight string, expressed over the directly-filtered
cohorts. -/
def diabetesInsightMsg (analytics : List PatientAnalytics) : String :=
  let d := grade3Rate (diabeticsOf analytics)
  let nd := grade3Rate (nonDiabeticsOf analytics)
  capFirst (if d > nd then "diabetic" else "non-diabetic") ++ " patients had " ++
    ratToFixed0 (|d - nd| * 100) ++ "% higher rate of Grade 3+ toxicity."

/-- Conversion of the code's boolean-guarded nested conditional to a
single conjunction guard. -/
theorem insight_guard {γ : Type} (m n : Nat) (c : Prop) [Decidable c] (x : γ) :
    (if (decide (m > 0) && decide (n > 0)) = true then (if c then [x] else []) else []) =
      (if 0 < m ∧ 0 < n ∧ c then [x] else []) := by
  by_cases h1 : 0 < m <;> by_cases h2 : 0 < n <;> by_cases h3 : c <;>
    simp [h1, h2, h3]

/-- C5: `generateInsights` emits the COPD insight iff both the
SBRT-with-COPD and IMRT-with-COPD cohorts are non-empty (so every mean
divides by a positive count) and their mean interruption counts differ by
more than 0.5; the diabetes insight iff both the diabetic and non-diabetic
cohorts are non-empty and their Grade-3 toxicity rates differ by more than
0.1; and it returns at most two strings. -/
theorem generateInsights_emission (analytics : List PatientAnalytics) :
    generateInsights analytics =
      (if 0 < (sbrtCopdOf analytics).length ∧ 0 < (imrtCopdOf analytics).length ∧
          1 / 2 < |avgInterruptions (sbrtCopdOf analytics) -
            avgInterruptions (imrtCopdOf analytics)|
        then [copdInsightMsg analytics] else []) ++
      (if 0 < (diabeticsOf analytics).length ∧ 0 < (nonDiabeticsOf analytics).length ∧
          1 / 10 < |grade3Rate (diabeticsOf analytics) - grade3Rate (nonDiabeticsOf analytics)|
        then [diabetesInsightMsg analytics] else []) ∧
    (generateInsights analytics).length ≤ 2 := by
  have hmain : generateInsights analytics =
      (if 0 < (sbrtCopdOf analytics).length ∧ 0 < (imrtCopdOf analytics).length ∧
          1 / 2 < |avgInterruptions (sbrtCopdOf analytics) -
            avgInterruptions (imrtCopdOf analytics)|
        then [copdInsightMsg analytics] else []) ++
      (if 0 < (diabeticsOf analytics).length ∧ 0 < (nonDiabeticsOf analytics).length ∧
          1 / 10 < |grade3Rate (diabeticsOf analytics) - grade3Rate (nonDiabeticsOf analytics)|
        then [diabetesInsightMsg analytics] else []) := by
    simp only [generateInsights, sbrt_group_eq, imrt_group_eq]
    rw [insight_guard, insight_guard]
    rfl
  exact ⟨hmain, by rw [hmain]; split_ifs <;> simp⟩

/-! ## C8: findMatches -/

/-- A case-folded occurrence of `t` in `c` at index `j`. -/
def occursAt (t c : List Char) (j : Nat) : Prop := t <+: c.drop j

theorem scanAux_sound (t : List Char) (ht : t ≠ []) :
    ∀ (fuel : Nat) (c : List Char) (i : Nat), c.length ≤ fuel →
      ∀ j ∈ scanAux t fuel c i, i ≤ j ∧ t <+: c.drop (j - i) := by
  intro fuel
  induction fuel with
  | zero =>
    intro c i hc j hj
    simp [scanAux] at hj
  | succ fuel ih =>
    intro c i hc j hj
    cases c with
    | nil => simp [scanAux] at hj
    | cons ch rest =>
      simp only [scanAux] at hj
      have ht1 : 1 ≤ t.length := by
        cases t with
        | nil => exact absurd rfl ht
        | cons a as => simp
      by_cases hp : t.isPrefixOf (ch :: rest)
      · rw [if_pos hp] at hj
        rcases List.mem_cons.mp hj with rfl | hj'
        · exact ⟨le_refl _, by simpa using List.isPrefixOf_iff_prefix.mp hp⟩
        · have hlen : (rest.drop (t.length - 1)).length ≤ fuel := by
            simp only [List.length_drop]
            simp only [List.length_cons] at hc
            omega
          obtain ⟨hij, hpre⟩ := ih _ _ hlen j hj'
          refine ⟨by omega, ?_⟩
          rw [List.drop_drop] at hpre
          have he : t.length - 1 + (j - (i + t.length)) = j - i - 1 := by omega
          rw [he] at hpre
          have hji : j - i = (j - i - 1) + 1 := by omega
          rw [hji, List.drop_succ_cons]
          exact hpre
      · rw [if_neg hp] at hj
        have hlen : rest.length ≤ fuel := by
          simp only [List.length_cons] at hc
          omega
        obtain ⟨hij, hpre⟩ := ih rest (i + 1) hlen j hj
        refine ⟨by omega, ?_⟩
        have hji : j - i = (j - (i + 1)) + 1 := by omega
        rw [hji, List.drop_succ_cons]
        exact hpre

theorem scanAux_chain (t : List Char) (ht : t ≠ []) :
    ∀ (fuel : Nat) (c : List Char) (i : Nat), c.length ≤ fuel →
      List.Chain' (fun a b => a + t.length ≤ b) (scanAux t fuel c i) := by
  intro fuel
  induction fuel with
  | zero => intro c i hc; simp [scanAux]
  | succ fuel ih =>
    intro c i hc
    cases c with
    | nil => simp [scanAux]
    | cons ch rest =>
      simp only [scanAux]
      by_cases hp : t.isPrefixOf (ch :: rest)
      · rw [if_pos hp]
        have hlen : (rest.drop (t.length - 1)).length ≤ fuel := by
          simp only [List.length_drop]
          simp only [List.length_cons] at hc
          omega
        rw [List.chain'_cons']
        refine ⟨?_, ih _ _ hlen⟩
        intro y hy
        have hym := List.mem_of_mem_head? hy
        exact (scanAux_sound t ht fuel _ _ hlen y hym).1
      · rw [if_neg hp]
        refine ih rest (i + 1) ?_
        simp only [List.length_cons] at hc
        omega

theorem scanAux_complete (t : List Char) (ht : t ≠ []) :
    ∀ (fuel : Nat) (c : List Char) (i : Nat), c.length ≤ fuel →
      ∀ d, t <+: c.drop d →
        ∃ j ∈ scanAux t fuel c i, j ≤ i + d ∧ i + d < j + t.length := by
  intro fuel
  induction fuel with
  | zero =>
    intro c i hc d hd
    have h0 : c = [] := List.length_eq_zero.mp (Nat.le_zero.mp hc)
    subst h0
    rw [List.drop_nil] at hd
    exact absurd (List.prefix_nil.mp hd) ht
  | succ fuel ih =>
    intro c i hc d hd
    cases c with
    | nil =>
      rw [List.drop_nil] at hd
      exact absurd (List.prefix_nil.mp hd) ht
    | cons ch rest =>
      have ht1 : 1 ≤ t.length := by
        cases t with
        | nil => exact absurd rfl ht
        | cons a as => simp
      simp only [scanAux]
      by_cases hp : t.isPrefixOf (ch :: rest)
      · rw [if_pos hp]
        by_cases hdlt : d < t.length
        · exact ⟨i, List.mem_cons_self _ _, by omega, by omega⟩
        · have hlen : (rest.drop (t.length - 1)).length ≤ fuel := by
            simp only [List.length_drop]
            simp only [List.length_cons] at hc
            omega
          have hd' : t <+: (rest.drop (t.length - 1)).drop (d - t.length) := by
            rw [List.drop_drop]
            have he : t.length - 1 + (d - t.length) = d - 1 := by omega
            rw [he]
            have hd1 : d = (d - 1) + 1 := by omega
            rw [hd1, List.drop_succ_cons] at hd
            exact hd
          obtain ⟨j, hjm, hj1, hj2⟩ := ih _ (i + t.length) hlen (d - t.length) hd'
          exact ⟨j, List.mem_cons_of_mem _ hjm, by omega, by omega⟩
      · rw [if_neg hp]
        have hd0 : d ≠ 0 := by
          intro h0
          subst h0
          rw [List.drop_zero] at hd
          exact hp (List.isPrefixOf_iff_prefix.mpr hd)
        have hd' : t <+: rest.drop (d - 1) := by
          have hd1 : d = (d - 1) + 1 := by omega
          rw [hd1, List.drop_succ_cons] at hd
          exact hd
        have hlen : rest.length ≤ fuel := by
          simp only [List.length_cons] at hc
          omega
        obtain ⟨j, hjm, hj1, hj2⟩ := ih rest (i + 1) hlen (d - 1) hd'
        exact ⟨j, hjm, by omega, by omega⟩

/-- The full characterization of `findMatches` for a usable search term:
every reported match is an occurrence of length `term.length`; matches are
non-overlapping and strictly left-to-right; and every occurrence overlaps
a reported match (so the reported ones are exactly the greedy
left-to-right non-overlapping occurrences). -/
def FindMatchesSpec (term content : String) : Prop :=
  (∀ m ∈ findMatches term content,
    m.length = term.length ∧ occursAt (lowerChars term) (lowerChars content) m.index) ∧
  List.Chain' (fun a b => a.index + term.length ≤ b.index) (findMatches term content) ∧
  (∀ j, occursAt (lowerChars term) (lowerChars content) j →
    ∃ m ∈ findMatches term content, m.index ≤ j ∧ j < m.index + term.length)

/-- C8: `findMatches` returns `[]` for an empty or whitespace-only term,
and otherwise satisfies the greedy-occurrence characterization above. -/
theorem findMatches_characterization (term content : String) :
    (jsTrim term = "" → findMatches term content = []) ∧
    (jsTrim term ≠ "" → 0 < term.length ∧ FindMatchesSpec term content) := by
  constructor
  · intro h
    simp [findMatches, h]
  · intro h
    have hterm : term.data ≠ [] := by
      intro hd
      apply h
      have he : term = "" := String.ext (by rw [hd])
      rw [he]
      rfl
    have hlt : lowerChars term ≠ [] := by simp [lowerChars, hterm]
    have hlen0 : 0 < term.length := by
      have h1 : term.data.length ≠ 0 := fun h0 => hterm (List.length_eq_zero.mp h0)
      have h2 : term.length = term.data.length := rfl
      omega
    have hL : (lowerChars term).length = term.length := by
      rw [lowerChars, List.length_map]
      rfl
    have hfm : findMatches term content =
        (scanMatches (lowerChars term) (lowerChars content)).map
          (fun i => ⟨i, term.length⟩) := by
      rw [findMatches, if_neg]
      simp [h]
    refine ⟨hlen0, ?_, ?_, ?_⟩
    · intro m hm
      rw [hfm] at hm
      obtain ⟨j, hj, rfl⟩ := List.mem_map.mp hm
      refine ⟨rfl, ?_⟩
      have hs := scanAux_sound (lowerChars term) hlt (lowerChars content).length
        (lowerChars content) 0 (le_refl _) j hj
      simpa [occursAt] using hs.2
    · rw [hfm, List.chain'_map]
      have hch := scanAux_chain (lowerChars term) hlt (lowerChars content).length
        (lowerChars content) 0 (le_refl _)
      rw [hL] at hch
      exact hch
    · intro j hj
      obtain ⟨j', hjm, h1, h2⟩ := scanAux_complete (lowerChars term) hlt
        (lowerChars content).length (lowerChars content) 0 (le_refl _) j hj
      refine ⟨⟨j', term.length⟩, ?_, ?_, ?_⟩
      · rw [hfm]
        exact List.mem_map.mpr ⟨j', hjm, rfl⟩
      · simpa using h1
      · show j < j' + term.length
        rw [hL] at h2
        omega

/-! ## C9: groupNotesByType -/

theorem addGroup_keys {α : Type} (k : String) (x : α) :
    ∀ acc : List (String × List α),
      (addGroup k x acc).map Prod.fst = insertNew (acc.map Prod.fst) k := by
  intro acc
  induction acc with
  | nil => simp [addGroup, insertNew]
  | cons hd tl ih =>
    rcases hd with ⟨k₀, v₀⟩
    by_cases h0 : k₀ = k
    · subst h0
      simp [addGroup, insertNew]
    · have h0' : (k₀ == k) = false := beq_false_of_ne h0
      by_cases hm : k ∈ tl.map Prod.fst
      · simp [addGroup, h0', ih, insertNew, hm, Ne.symm h0]
      · simp [addGroup, h0', ih, insertNew, hm, Ne.symm h0]

theorem groupFold_keys {α : Type} (key : α → String) :
    ∀ (l : List α) (acc : List (String × List α)),
      (l.foldl (fun acc x => addGroup (key x) x acc) acc).map Prod.fst =
        (l.map key).foldl insertNew (acc.map Prod.fst) := by
  intro l
  induction l with
  | nil => intro acc; rfl
  | cons a as ih =>
    intro acc
    simp only [List.foldl_cons, List.map_cons, ih, addGroup_keys]

theorem groupNotesByType_keys (notes : List Note) :
    (groupNotesByType notes).map Prod.fst = dedupFirst (notes.map tabOf) := by
  have h1 : (groupNotesByType notes).map Prod.fst = (groupFold tabOf notes).map Prod.fst := by
    simp only [groupNotesByType, List.map_map]
    rfl
  rw [h1]
  show (notes.foldl (fun acc x => addGroup (tabOf x) x acc) []).map Prod.fst = _
  rw [groupFold_keys]
  rfl

theorem getGroup_map_sort (k : String) :
    ∀ l : List (String × List Note),
      getGroup k (l.map (fun kv => (kv.1, kv.2.mergeSort creationDescLe))) =
        (getGroup k l).mergeSort creationDescLe := by
  intro l
  induction l with
  | nil => simp [getGroup, List.mergeSort_nil]
  | cons hd tl ih =>
    rcases hd with ⟨k₀, v⟩
    cases h : (k₀ == k) <;> simp [getGroup, h, ih]

theorem getGroup_groupNotesByType (k : String) (notes : List Note) :
    getGroup k (groupNotesByType notes) =
      (notes.filter (fun n => tabOf n == k)).mergeSort creationDescLe := by
  simp only [groupNotesByType]
  rw [getGroup_map_sort, getGroup_groupFold]

theorem creationDescLe_trans (a b c : Note) :
    creationDescLe a b = true → creationDescLe b c = true → creationDescLe a c = true := by
  simp only [creationDescLe, decide_eq_true_eq]
  omega

theorem creationDescLe_total (a b : Note) :
    (creationDescLe a b || creationDescLe b a) = true := by
  simp only [creationDescLe, Bool.or_eq_true, decide_eq_true_eq]
  omega

/-- C9 (amended): `groupNotesByType` has no duplicate tab keys, the bucket
of each key `k` holds exactly the notes whose tab — `mapNoteTypeToTab` of
the noteType when it is present and non-empty, of the description (or
`''`) otherwise, `tabOf` — equals `k`, and each bucket is ordered by
creation date, newest first.  Together these say every note lands in
exactly one bucket. -/
theorem groupNotesByType_partition (notes : List Note) :
    ((groupNotesByType notes).map Prod.fst).Nodup ∧
    (∀ k, (getGroup k (groupNotesByType notes)).Perm
      (notes.filter (fun n => tabOf n == k))) ∧
    (∀ k, (getGroup k (groupNotesByType notes)).Pairwise
      (fun a b => b.creation ≤ a.creation)) := by
  refine ⟨?_, ?_, ?_⟩
  · rw [groupNotesByType_keys, dedupFirst_eq]
    exact nodup_dedupFirstAux _ []
  · intro k
    rw [getGroup_groupNotesByType]
    exact List.mergeSort_perm _ _
  · intro k
    rw [getGroup_groupNotesByType]
    have hs := List.sorted_mergeSort creationDescLe_trans creationDescLe_total
      (notes.filter (fun n => tabOf n == k))
    refine hs.imp ?_
    intro a b hab
    simpa [creationDescLe] using hab

/-- A note whose `noteType` is present but empty. -/
def emptyTypeNote : Note :=
  { patient_id := "p1", noteType := some "", description := some "consult" }

/-- C9 counterexample: for a present-but-empty `noteType` the code falls
back to the description, so the note lands under "consult", while the
claim's rule — `mapNoteTypeToTab` of the (present) `noteType` — assigns
`mapNoteTypeToTab "" = "other"`. -/
theorem groupNotesByType_emptyType_counterexample :
    mapNoteTypeToTab "" = "other" ∧
    (groupNotesByType [emptyTypeNote]).map Prod.fst = ["consult"] := by
  constructor
  · rfl
  · rfl

/-! ## Concrete witnesses -/

/-- Notes of two patients, one id repeated. -/
def wNotesA : List Note :=
  [{ patient_id := "alice" }, { patient_id := "bob" }, { patient_id := "alice" }]

theorem generatePatientAnalytics_groups_by_patient_witness :
    "alice" ∈ (generatePatientAnalytics wNotesA).map (·.patientId) :=
  ((generatePatientAnalytics_groups_by_patient wNotesA).2.1 "alice").mpr (by decide)

/-- A consult note of patient `p`. -/
def wNoteP : Note := { patient_id := "p", noteType := some "CONSULT", creation := 5 }

/-- A note of an unrelated patient `q`. -/
def wNoteQ : Note := { patient_id := "q", noteType := some "FOLLOWUP", creation := 1 }

theorem extractions_local_to_patient_witness :
    extractComorbidityProfile [wNoteQ, wNoteP] "p" = extractComorbidityProfile [wNoteP] "p" ∧
    extractTreatmentModality [wNoteQ, wNoteP] "p" = extractTreatmentModality [wNoteP] "p" ∧
    extractTreatmentTolerance [wNoteQ, wNoteP] "p" = extractTreatmentTolerance [wNoteP] "p" ∧
    extractOutcomeData [wNoteQ, wNoteP] "p" = extractOutcomeData [wNoteP] "p" :=
  extractions_local_to_patient [wNoteQ, wNoteP] [wNoteP] "p" (by decide)

/-- An SBRT analytics entry with an ageless profile. -/
def wEntry : PatientAnalytics :=
  ⟨"w1", initProfile "w1", ⟨"w1", "SBRT", none, none, none⟩,
    ⟨"w1", 0, false, none, true, [], []⟩, ⟨"w1", false, false, none, false, false⟩⟩

theorem filterPatientCohort_conjunction_witness :
    filterPatientCohort [wEntry] ⟨none, none, none, none, none⟩ = ["w1"] :=
  ((filterPatientCohort_conjunction [wEntry] ⟨none, none, none, none, none⟩).2.2).trans
    (by decide)

/-- A consult note whose medical history names hypertension. -/
def wNoteH : Note :=
  { patient_id := "p", noteType := some "CONSULT",
    noteAbstraction := some { history := some { medical_history := ["Hypertension"] } } }

theorem comorbidity_flags_are_keyword_rollups_witness :
    (extractComorbidityProfile [wNoteH] "p").hypertension = true :=
  ((comorbidity_flags_are_keyword_rollups [wNoteH] "p").1).mpr
    ⟨wNoteH, by decide, Or.inl (by decide)⟩

theorem generateInsights_emission_witness :
    (generateInsights ([] : List PatientAnalytics)).length ≤ 2 :=
  (generateInsights_emission []).2

/-- A follow-up note of patient `p`. -/
def wNoteF : Note := { patient_id := "p", noteType := some "FOLLOWUP", creation := 100 }

/-- A consult note of patient `p` created earlier. -/
def wNoteC : Note := { patient_id := "p", noteType := some "CONSULT", creation := 10 }

theorem outcome_from_latest_followup_witness :
    (extractOutcomeData [wNoteC, wNoteF] "p").survivalMonths.isSome = true := by
  obtain ⟨latest, hmem, hmax, h1, h2, h3, h4, h5⟩ :=
    (outcome_from_latest_followup [wNoteC, wNoteF] "p").2 (by decide)
  exact h5.mpr (by decide)

/-- A daily-treatment note describing a treatment hold. -/
def wNoteD : Note :=
  { patient_id := "p", noteType := some "DAILY TREATMENT",
    description := some "Treatment hold today" }

theorem tolerance_rollups_witness :
    (extractTreatmentTolerance [wNoteD] "p").interruptions = 1 ∧
    (extractTreatmentTolerance [wNoteD] "p").toxicityGrade = none := by
  refine ⟨(tolerance_rollups [wNoteD] "p").1.trans (by decide), ?_⟩
  exact (tolerance_rollups [wNoteD] "p").2.2.mpr (by decide)

theorem findMatches_characterization_witness :
    jsTrim "ab" ≠ "" ∧ (0 < ("ab" : String).length ∧ FindMatchesSpec "ab" "xAbab") :=
  ⟨by decide, (findMatches_characterization "ab" "xAbab").2 (by decide)⟩

/-- A nurse note. -/
def wNoteN : Note := { patient_id := "p", noteType := some "NURSE" }

theorem groupNotesByType_partition_witness :
    ((groupNotesByType [wNoteN]).map Prod.fst).Nodup :=
  (groupNotesByType_partition [wNoteN]).1

/-- Four measures: one passed, one failed, one excluded, one unclassified. -/
def wMeasures : List QualityMeasure :=
  [⟨some "Pass"⟩, ⟨some "fail"⟩, ⟨some "Excluded"⟩, ⟨some "other"⟩]

theorem qualityMeasuresCounts_classification_witness :
    (qualityMeasuresCounts wMeasures).1 + (qualityMeasuresCounts wMeasures).2.1 +
      (qualityMeasuresCounts wMeasures).2.2 ≤ wMeasures.length :=
  (qualityMeasuresCounts_classification wMeasures).2
